import Mathlib

/-!
# Verification of the `edible` reference-resolution evaluator

This file shallowly embeds the two evaluator prototypes of the repository,
`src/evaluator.py` (namespace `Ev1`) and `src/evaluator2.py` (namespace `Ev2`),
and proves or refutes the specification claims about them.

Modelling conventions, shared by both namespaces:

* Python objects `Str`, `Bool`, `Int`, `Float`, `Ref`, `Unary`, `Binary`,
  `Array`, `Table`, `TableItem` become one inductive `Expr` (the Python
  `Expr` type alias is a union of those dataclasses).  `Float` payloads are
  never inspected by any evaluator code (floats are never valid keys and no
  arithmetic is implemented), so the payload is an uninterpreted `Nat` tag.
* Each Python `Ref` object carries mutable evaluation state (`_parent`,
  `_cache`, `_evaluated`).  Object identity matters for that state, so every
  `ref` node carries an explicit identifier `id : Nat`, and the mutable state
  lives in a side table `St : Nat → RefState`, mirroring how the Python heap
  attaches state to each `Ref` object.  The tree structure itself is immutable
  in the source (only these fields are ever written), so value semantics for
  the rest of the tree is faithful; `_cache` and `_parent` hold aliases into
  the tree, which the embedding represents as `Expr` values carrying the same
  `id`s, so that later mutations remain shared through the side table.
* Python raises exceptions and mutations made before a `raise` persist, so
  every evaluator function returns `Res α`: `ok a st`, `err e st` (the state
  at the moment of the raise), or `timeout`.  `timeout` models
  non-termination: the Python loops (`while` chains over `_cache`) have no
  bound, so every recursive call consumes one unit of fuel and exhausted fuel
  yields `timeout`.  No Python exception corresponds to `timeout`; it is
  never caught.
-/

namespace Ev1

/-- `RefModifier` from `src/evaluator.py`. -/
inductive RefModifier where
  | absolute
  | relative
deriving DecidableEq, Repr

/-- `UnaryOp` from `src/evaluator.py`. -/
inductive UnaryOp where
  | plus
  | minus
deriving DecidableEq, Repr

/-- `BinaryOp` from `src/evaluator.py`. -/
inductive BinaryOp where
  | plus
  | minus
  | star
  | slash
deriving DecidableEq, Repr

mutual

/-- The `Expr` union of `src/evaluator.py`: `Str | Bool | Int | Float | Ref |
Unary | Binary | Array | Table`.  `ref` carries the explicit object identity
`id` used to key its mutable evaluation state; the `float` payload is an
uninterpreted tag (see the header comment). -/
inductive Expr where
  | str (value : String)
  | bool (value : Bool)
  | int (value : Int)
  | float (value : Nat)
  | ref (id : Nat) (keys : List Expr) (modifier : RefModifier)
  | unary (op : UnaryOp) (right : Expr)
  | binary (left : Expr) (op : BinaryOp) (right : Expr)
  | array (items : List Expr)
  | table (items : List TableItem)

/-- `TableItem` from `src/evaluator.py`: `key`, `value`, and the optional
`parent` scope-override expression. -/
inductive TableItem where
  | mk (key : Expr) (value : Expr) (parent : Option Expr)

end

/-- The `key` field of a `TableItem`. -/
def TableItem.key : TableItem → Expr
  | .mk k _ _ => k

/-- The `value` field of a `TableItem`. -/
def TableItem.value : TableItem → Expr
  | .mk _ v _ => v

/-- The `parent` (scope-override) field of a `TableItem`. -/
def TableItem.parent : TableItem → Option Expr
  | .mk _ _ p => p

/-- The mutable evaluation state of one `Ref` object: its `_parent`,
`_cache` and `_evaluated` fields (dataclass defaults: `None`, `None`,
`False`). -/
structure RefState where
  parent : Option Expr
  cache : Option Expr
  evaluated : Bool

/-- The heap of per-`Ref` mutable state, keyed by object identity. -/
abbrev St := Nat → RefState

/-- The state of a freshly constructed tree: every `Ref` has
`_parent = None`, `_cache = None`, `_evaluated = False`. -/
def initState : St := fun _ => ⟨none, none, false⟩

/-- Write the state of the `Ref` object with identity `id`. -/
def setRef (st : St) (id : Nat) (r : RefState) : St :=
  fun j => if j = id then r else st j

/-- The distinct `raise` sites of `src/evaluator.py`, tagged by Python
exception class:
* `notImplemented` — `NotImplementedError` from `_evaluate` on
  `Unary`/`Binary`/`Array` and from `_evaluate_ref` on an `Array` target.
  In Python, `NotImplementedError` is a subclass of `RuntimeError`.
* `keyError k ik` — `KeyError("Key not found.", key, item_key)` from the
  no-match branch of `_evaluate_ref`, carrying the looked-up key and the
  last successfully unwrapped sibling key.
* `unboundLocalItemKey` — the crash of that same branch when the local
  variable `item_key` was never assigned (Python `UnboundLocalError`,
  a subclass of `NameError`).
* `runtimeFailedRef` — `RuntimeError("Failed to evaluate reference.")`
  from `_evaluate_key` when a reference's `_cache` is still `None`.
* `typeKeyKind` — `TypeError("Expected string or integer for key.")`
  from `_evaluate_key`. -/
inductive Err where
  | notImplemented
  | keyError (key : Expr) (itemKey : Expr)
  | unboundLocalItemKey
  | runtimeFailedRef
  | typeKeyKind

/-- Which exceptions the `except (RuntimeError, TypeError)` clause inside the
entry scan of `_evaluate_ref` catches.  `NotImplementedError` is caught
because it subclasses `RuntimeError`; `KeyError` and `UnboundLocalError`
are not caught. -/
def Err.caught : Err → Bool
  | .notImplemented => true
  | .runtimeFailedRef => true
  | .typeKeyKind => true
  | .keyError _ _ => false
  | .unboundLocalItemKey => false

/-- Outcome of running a piece of evaluator code from some state: normal
return, a raised exception (with the state at the raise), or fuel
exhaustion standing for non-termination. -/
inductive Res (α : Type) where
  | ok (a : α) (st : St)
  | err (e : Err) (st : St)
  | timeout

/-- The error of a `Res`, if it raised. -/
def Res.errOf : Res α → Option Err
  | .err e _ => some e
  | _ => none

/-- The final state of a `Res`, with a default for `timeout`. -/
def Res.stateD : Res α → St → St
  | .ok _ st, _ => st
  | .err _ st, _ => st
  | .timeout, d => d

/-- The match test of the entry scan in `_evaluate_ref`:
`isinstance(item_key, Str) and key.value == item_key.value`.  Both arguments
are results of `_evaluate_key`, hence `Str` or `Int` values; a Python
comparison of an `int` with a `str` is `False`, so only `Str`/`Str` pairs
with equal strings match.  (Branches for other constructors are unreachable
and return `false`, which is also what the Python `==` would produce.) -/
def keyMatches (key : Expr) (itemKey : Expr) : Bool :=
  match itemKey with
  | .str s2 =>
    match key with
    | .str s1 => s1 = s2
    | _ => false
  | _ => false

mutual

/-- `Evaluator._evaluate` of `src/evaluator.py`: dispatch on the expression
kind.  Scalars are no-ops, `Ref` goes to `_evaluate_ref`, `Unary`, `Binary`
and `Array` raise `NotImplementedError`, `Table` goes to `_evaluate_table`.
`root` is the evaluator's `self._expr`. -/
def evaluate_expr (root : Expr) : Nat → Expr → St → Res Unit
  | 0, _, _ => .timeout
  | fuel + 1, e, st =>
    match e with
    | .str _ => .ok () st
    | .bool _ => .ok () st
    | .int _ => .ok () st
    | .float _ => .ok () st
    | .ref id keys m => evaluate_ref root fuel id keys m st
    | .unary _ _ => .err .notImplemented st
    | .binary _ _ _ => .err .notImplemented st
    | .array _ => .err .notImplemented st
    | .table items => evaluate_table root fuel items st

/-- The loop of `Evaluator._evaluate_table`: for every item in document
order, `_evaluate` its key, then its value. -/
def evaluate_table (root : Expr) : Nat → List TableItem → St → Res Unit
  | 0, _, _ => .timeout
  | _ + 1, [], st => .ok () st
  | fuel + 1, item :: rest, st =>
    match evaluate_expr root fuel item.key st with
    | .ok _ st1 =>
      match evaluate_expr root fuel item.value st1 with
      | .ok _ st2 => evaluate_table root fuel rest st2
      | .err e st2 => .err e st2
      | .timeout => .timeout
    | .err e st1 => .err e st1
    | .timeout => .timeout

/-- `Evaluator._evaluate_ref` of `src/evaluator.py`.  If `_evaluated` is
already set it returns immediately (no error, no state change).  Otherwise it
sets `_evaluated := True` first, picks the starting target (`self._expr` for
`ABSOLUTE`, `_parent` for `RELATIVE`, possibly `None`), runs the key loop,
and finally stores the resulting target — whatever it is, `None` included —
into `_cache`. -/
def evaluate_ref (root : Expr) : Nat → Nat → List Expr → RefModifier → St →
    Res Unit
  | 0, _, _, _, _ => .timeout
  | fuel + 1, id, keys, m, st =>
    if (st id).evaluated then .ok () st
    else
      let st1 := setRef st id ⟨(st id).parent, (st id).cache, true⟩
      let current : Option Expr :=
        match m with
        | .absolute => some root
        | .relative => (st1 id).parent
      match evaluate_keys root fuel keys current none st1 with
      | .ok cur st2 =>
        .ok () (setRef st2 id ⟨(st2 id).parent, cur, (st2 id).evaluated⟩)
      | .err e st2 => .err e st2
      | .timeout => .timeout

/-- The `for key in ref.keys` loop of `_evaluate_ref`.  Each segment first
runs `_evaluate_key`, then matches the current target: an `Array` raises
`NotImplementedError`, a `Table` is scanned, and — because the Python
`match` has no other cases — any other target (a scalar, a reference, or
`None`) falls through silently, leaving the target unchanged.  `ik` models
the Python local variable `item_key`: it is scoped to the whole
`_evaluate_ref` activation (unbound, `none`, at entry) and persists across
key segments, so a later segment's scan starts from whatever the previous
segment's scan last assigned — after a matched scan, the matched entry's
unwrapped key. -/
def evaluate_keys (root : Expr) : Nat → List Expr → Option Expr →
    Option Expr → St → Res (Option Expr)
  | 0, _, _, _, _ => .timeout
  | _ + 1, [], current, _, st => .ok current st
  | fuel + 1, k :: ks, current, ik, st =>
    match evaluate_key root fuel k st with
    | .ok kv st1 =>
      match current with
      | some (.array _) => .err .notImplemented st1
      | some (.table items) =>
        match scan_items root fuel kv items ik st1 with
        | .ok (v, ikv) st2 => evaluate_keys root fuel ks (some v) (some ikv) st2
        | .err e st2 => .err e st2
        | .timeout => .timeout
      | _ => evaluate_keys root fuel ks current ik st1
    | .err e st1 => .err e st1
    | .timeout => .timeout

/-- The entry scan of `_evaluate_ref` over a `Table` target.  `itemKey`
models the Python local variable `item_key` as handed in by the key loop:
it persists across loop iterations (and across key segments, see
`evaluate_keys`) and is unbound (`none`) until the first successful
`_evaluate_key(item.key)` of the activation.  A caught exception
(`RuntimeError` or `TypeError`) skips the entry; the first entry whose
unwrapped key matches stops the scan, yielding its value together with the
matched entry's unwrapped key (the value `item_key` holds after the
`break`); exhausting the entries raises
`KeyError("Key not found.", key, item_key)` — or crashes with
`UnboundLocalError` if `item_key` was never assigned in this activation. -/
def scan_items (root : Expr) : Nat → Expr → List TableItem → Option Expr →
    St → Res (Expr × Expr)
  | 0, _, _, _, _ => .timeout
  | _ + 1, key, [], itemKey, st =>
    match itemKey with
    | none => .err .unboundLocalItemKey st
    | some ik => .err (.keyError key ik) st
  | fuel + 1, key, item :: rest, itemKey, st =>
    match evaluate_key root fuel item.key st with
    | .ok ik st1 =>
      if keyMatches key ik then .ok (item.value, ik) st1
      else scan_items root fuel key rest (some ik) st1
    | .err e st1 =>
      if e.caught then scan_items root fuel key rest itemKey st1
      else .err e st1
    | .timeout => .timeout

/-- `Evaluator._evaluate_key` of `src/evaluator.py`: while the key is not a
`Str` or `Int`, a `Ref` is `_evaluate`d and replaced by its `_cache`
(raising `RuntimeError` if the cache is still `None`), and anything else
raises `TypeError`. -/
def evaluate_key (root : Expr) : Nat → Expr → St → Res Expr
  | 0, _, _ => .timeout
  | fuel + 1, k, st =>
    match k with
    | .str s => .ok (.str s) st
    | .int n => .ok (.int n) st
    | .ref id keys m =>
      match evaluate_expr root fuel (.ref id keys m) st with
      | .ok _ st1 =>
        match (st1 id).cache with
        | none => .err .runtimeFailedRef st1
        | some c => evaluate_key root fuel c st1
      | .err e st1 => .err e st1
      | .timeout => .timeout
    | _ => .err .typeKeyKind st

end

mutual

/-- `Evaluator._resolve` of `src/evaluator.py` writes only the `_parent`
fields of `Ref` nodes and reads no evaluation state, so it is embedded as
the in-order list of `_parent` assignments `(id, parent)` its traversal
performs (applied to the state by `applyWrites` below).  Scalars emit
nothing; a `Ref` emits one assignment of the ambient `parent` (the traversal
does not descend into its `keys`); `Unary`, `Binary` and `Array` recurse
with the same ambient parent; a `Table` recurses into each item's key, value
and (when present) scope-override with itself as the ambient parent. -/
def resolveWrites (parent : Option Expr) : Expr → List (Nat × Option Expr)
  | .str _ => []
  | .bool _ => []
  | .int _ => []
  | .float _ => []
  | .ref id _ _ => [(id, parent)]
  | .unary _ right => resolveWrites parent right
  | .binary left _ right => resolveWrites parent left ++ resolveWrites parent right
  | .array items => resolveWritesList parent items
  | .table items => resolveWritesItems (.table items) items

/-- `_resolve` over the element list of an `Array`. -/
def resolveWritesList (parent : Option Expr) : List Expr →
    List (Nat × Option Expr)
  | [] => []
  | e :: rest => resolveWrites parent e ++ resolveWritesList parent rest

/-- `_resolve` over the items of a `Table` `tbl`: key, value, then the
optional scope-override, each resolved with `tbl` as parent. -/
def resolveWritesItems (tbl : Expr) : List TableItem →
    List (Nat × Option Expr)
  | [] => []
  | .mk k v po :: rest =>
    resolveWrites (some tbl) k ++ resolveWrites (some tbl) v ++
      (match po with
       | some pe => resolveWrites (some tbl) pe
       | none => []) ++ resolveWritesItems tbl rest

end

/-- Replay a list of `_parent` assignments against the state, in order. -/
def applyWrites : List (Nat × Option Expr) → St → St
  | [], st => st
  | (id, p) :: rest, st =>
    applyWrites rest (setRef st id ⟨p, (st id).cache, (st id).evaluated⟩)

/-- `Evaluator._resolve` applied to the whole tree (see `resolveWrites`). -/
def resolve (parent : Option Expr) (e : Expr) (st : St) : St :=
  applyWrites (resolveWrites parent e) st

/-- The ambient parent `evaluate` picks before resolving: the tree itself
when it is a `Table`, and `None` otherwise. -/
def parentInit (root : Expr) : Option Expr :=
  match root with
  | .table _ => some root
  | _ => none

/-- `Evaluator.evaluate` of `src/evaluator.py`: pick the ambient parent,
then `_resolve`, then `_evaluate`, then return `self._expr`. -/
def evaluate (root : Expr) (fuel : Nat) (st : St) : Res Expr :=
  match evaluate_expr root fuel root (resolve (parentInit root) root st) with
  | .ok _ st1 => .ok root st1
  | .err e st1 => .err e st1
  | .timeout => .timeout

end Ev1

namespace Ev2

/-- `RefModifier` from `src/evaluator2.py`. -/
inductive RefModifier where
  | absolute
  | relative
deriving DecidableEq, Repr

mutual

/-- The `Expr` union of `src/evaluator2.py`:
`Str | Bool | Int | Float | Ref | Table` (no `Unary`/`Binary`/`Array`).
Conventions as in `Ev1.Expr`. -/
inductive Expr where
  | str (value : String)
  | bool (value : Bool)
  | int (value : Int)
  | float (value : Nat)
  | ref (id : Nat) (keys : List Expr) (modifier : RefModifier)
  | table (items : List TableItem)

/-- `TableItem` from `src/evaluator2.py`. -/
inductive TableItem where
  | mk (key : Expr) (value : Expr) (parent : Option Expr)

end

/-- The `key` field of a `TableItem`. -/
def TableItem.key : TableItem → Expr
  | .mk k _ _ => k

/-- The `value` field of a `TableItem`. -/
def TableItem.value : TableItem → Expr
  | .mk _ v _ => v

/-- The `parent` (scope-override) field of a `TableItem`. -/
def TableItem.parent : TableItem → Option Expr
  | .mk _ _ p => p

/-- Mutable evaluation state of one `Ref`: `parent`, `cache`, `evaluated`. -/
structure RefState where
  parent : Option Expr
  cache : Option Expr
  evaluated : Bool

/-- The heap of per-`Ref` mutable state, keyed by object identity. -/
abbrev St := Nat → RefState

/-- State of a freshly constructed tree. -/
def initState : St := fun _ => ⟨none, none, false⟩

/-- Write the state of the `Ref` object with identity `id`. -/
def setRef (st : St) (id : Nat) (r : RefState) : St :=
  fun j => if j = id then r else st j

/-- The distinct `raise` sites of `src/evaluator2.py`:
* `typeNone` — `TypeError("NONE!")` when a key segment starts with no
  current target (a relative reference whose `parent` is `None`).
* `expectStrKey` — `TypeError("Expect string key.")` when the looked-up key
  does not unwrap to a `Str`.
* `expectTable` — `TypeError("Expect table.")` when the unwrapped target of
  a key segment is not a `Table`.
* `expectStrItemKey` — `TypeError("Expect string key for item.")` when a
  scanned entry's key unwraps to a non-`Str`; note this raise is outside the
  `try`, so it aborts the whole lookup.
* `runtimeFailedRef` — `RuntimeError("Failed to evaluate reference.")` from
  `_unwrap` when a reference's `cache` is still `None`; this is the only
  exception the entry scan's `except RuntimeError` clause catches. -/
inductive Err where
  | typeNone
  | expectStrKey
  | expectTable
  | expectStrItemKey
  | runtimeFailedRef
deriving DecidableEq, Repr

/-- Outcome of running `src/evaluator2.py` code from some state (see
`Ev1.Res`). -/
inductive Res (α : Type) where
  | ok (a : α) (st : St)
  | err (e : Err) (st : St)
  | timeout

/-- The error of a `Res`, if it raised. -/
def Res.errOf : Res α → Option Err
  | .err e _ => some e
  | _ => none

/-- The final state of a `Res`, with a default for `timeout`. -/
def Res.stateD : Res α → St → St
  | .ok _ st, _ => st
  | .err _ st, _ => st
  | .timeout, d => d

mutual

/-- `Evaluator._evaluate` of `src/evaluator2.py`: scalars are no-ops, `Ref`
goes to `_evaluate_ref`, `Table` to `_evaluate_table`. -/
def evaluate_expr (root : Expr) : Nat → Expr → St → Res Unit
  | 0, _, _ => .timeout
  | fuel + 1, e, st =>
    match e with
    | .str _ => .ok () st
    | .bool _ => .ok () st
    | .int _ => .ok () st
    | .float _ => .ok () st
    | .ref id keys m => evaluate_ref root fuel id keys m st
    | .table items => evaluate_table root fuel items st

/-- The loop of `Evaluator._evaluate_table` of `src/evaluator2.py`. -/
def evaluate_table (root : Expr) : Nat → List TableItem → St → Res Unit
  | 0, _, _ => .timeout
  | _ + 1, [], st => .ok () st
  | fuel + 1, item :: rest, st =>
    match evaluate_expr root fuel item.key st with
    | .ok _ st1 =>
      match evaluate_expr root fuel item.value st1 with
      | .ok _ st2 => evaluate_table root fuel rest st2
      | .err e st2 => .err e st2
      | .timeout => .timeout
    | .err e st1 => .err e st1
    | .timeout => .timeout

/-- `Evaluator._evaluate_ref` of `src/evaluator2.py`.  An already-`evaluated`
reference returns immediately (the `HOT EXIT` branch — a diagnostic print and
`return`, no error and no state change).  Otherwise `evaluated := True` is
set first, the starting target is `self._expr` (`ABSOLUTE`) or `parent`
(`RELATIVE`, possibly `None`), the key loop runs, and the final target —
which may be `None` or an unresolved `Ref` — is stored into `cache`. -/
def evaluate_ref (root : Expr) : Nat → Nat → List Expr → RefModifier → St →
    Res Unit
  | 0, _, _, _, _ => .timeout
  | fuel + 1, id, keys, m, st =>
    if (st id).evaluated then .ok () st
    else
      let st1 := setRef st id ⟨(st id).parent, (st id).cache, true⟩
      let current : Option Expr :=
        match m with
        | .absolute => some root
        | .relative => (st1 id).parent
      match evaluate_keys root fuel keys current st1 with
      | .ok cur st2 =>
        .ok () (setRef st2 id ⟨(st2 id).parent, cur, (st2 id).evaluated⟩)
      | .err e st2 => .err e st2
      | .timeout => .timeout

/-- The `for key in ref.keys` loop of `_evaluate_ref` in
`src/evaluator2.py`.  Per segment, in source order: raise
`TypeError("NONE!")` if the current target is `None`; `_unwrap` the target
into `curry`; `_unwrap` the key; require the key to be a `Str`; require
`curry` to be a `Table`; scan its items.  If the scan matches, the target
becomes the matched value; if it finds nothing, the target is left
unchanged and the loop moves on — there is no key-not-found error. -/
def evaluate_keys (root : Expr) : Nat → List Expr → Option Expr → St →
    Res (Option Expr)
  | 0, _, _, _ => .timeout
  | _ + 1, [], current, st => .ok current st
  | fuel + 1, k :: ks, current, st =>
    match current with
    | none => .err .typeNone st
    | some curE =>
      match unwrap root fuel curE st with
      | .ok curry st1 =>
        match unwrap root fuel k st1 with
        | .ok kv st2 =>
          match kv with
          | .str s =>
            match curry with
            | .table items =>
              match scan_items root fuel s items st2 with
              | .ok (some v) st3 => evaluate_keys root fuel ks (some v) st3
              | .ok none st3 => evaluate_keys root fuel ks (some curE) st3
              | .err e st3 => .err e st3
              | .timeout => .timeout
            | _ => .err .expectTable st2
          | _ => .err .expectStrKey st2
        | .err e st2 => .err e st2
        | .timeout => .timeout
      | .err e st1 => .err e st1
      | .timeout => .timeout

/-- The entry scan of `_evaluate_ref` in `src/evaluator2.py`: unwrap each
entry's key inside `try ... except RuntimeError: continue`; a key that
unwraps to a non-`Str` raises `TypeError` (aborting the lookup); the first
entry whose key equals the looked-up string stops the scan with its value;
running out of entries reports "no match" (`none`) without error. -/
def scan_items (root : Expr) : Nat → String → List TableItem → St →
    Res (Option Expr)
  | 0, _, _, _ => .timeout
  | _ + 1, _, [], st => .ok none st
  | fuel + 1, s, item :: rest, st =>
    match unwrap root fuel item.key st with
    | .ok ik st1 =>
      match ik with
      | .str s2 =>
        if s = s2 then .ok (some item.value) st1
        else scan_items root fuel s rest st1
      | _ => .err .expectStrItemKey st1
    | .err e st1 =>
      if e = .runtimeFailedRef then scan_items root fuel s rest st1
      else .err e st1
    | .timeout => .timeout

/-- `Evaluator._unwrap` of `src/evaluator2.py`: while the expression is a
`Ref`, `_evaluate` it and replace it by its `cache`, raising `RuntimeError`
if the cache is still `None`. -/
def unwrap (root : Expr) : Nat → Expr → St → Res Expr
  | 0, _, _ => .timeout
  | fuel + 1, e, st =>
    match e with
    | .ref id keys m =>
      match evaluate_expr root fuel (.ref id keys m) st with
      | .ok _ st1 =>
        match (st1 id).cache with
        | none => .err .runtimeFailedRef st1
        | some c => unwrap root fuel c st1
      | .err e st1 => .err e st1
      | .timeout => .timeout
    | _ => .ok e st

end

mutual

/-- `Evaluator._resolve` of `src/evaluator2.py` as its in-order list of
`parent` assignments (see `Ev1.resolveWrites`; this variant has no
`Unary`/`Binary`/`Array` cases). -/
def resolveWrites (parent : Option Expr) : Expr → List (Nat × Option Expr)
  | .str _ => []
  | .bool _ => []
  | .int _ => []
  | .float _ => []
  | .ref id _ _ => [(id, parent)]
  | .table items => resolveWritesItems (.table items) items

/-- `_resolve` over the items of a `Table` `tbl`. -/
def resolveWritesItems (tbl : Expr) : List TableItem →
    List (Nat × Option Expr)
  | [] => []
  | .mk k v po :: rest =>
    resolveWrites (some tbl) k ++ resolveWrites (some tbl) v ++
      (match po with
       | some pe => resolveWrites (some tbl) pe
       | none => []) ++ resolveWritesItems tbl rest

end

/-- Replay a list of `parent` assignments against the state, in order. -/
def applyWrites : List (Nat × Option Expr) → St → St
  | [], st => st
  | (id, p) :: rest, st =>
    applyWrites rest (setRef st id ⟨p, (st id).cache, (st id).evaluated⟩)

/-- `Evaluator._resolve` applied to the whole tree. -/
def resolve (parent : Option Expr) (e : Expr) (st : St) : St :=
  applyWrites (resolveWrites parent e) st

/-- The ambient parent `evaluate` picks before resolving (see
`Ev1.parentInit`). -/
def parentInit (root : Expr) : Option Expr :=
  match root with
  | .table _ => some root
  | _ => none

/-- `Evaluator.evaluate` of `src/evaluator2.py`. -/
def evaluate (root : Expr) (fuel : Nat) (st : St) : Res Expr :=
  match evaluate_expr root fuel root (resolve (parentInit root) root st) with
  | .ok _ st1 => .ok root st1
  | .err e st1 => .err e st1
  | .timeout => .timeout

end Ev2

/-- A table item with no scope-override (the common case in the sources). -/
def Ev1.mkItem (k v : Ev1.Expr) : Ev1.TableItem := .mk k v none

/-- A table item with no scope-override (the common case in the sources). -/
def Ev2.mkItem (k v : Ev2.Expr) : Ev2.TableItem := .mk k v none

/-- A state in which exactly the reference with identity `1` is already
flagged as being evaluated (`_evaluated = True`, `_cache = None`): the state
an evaluator sees when re-entering reference `1` while its resolution is
still in progress. -/
def c1preSt1 : Ev1.St := fun n => if n = 1 then ⟨none, none, true⟩ else ⟨none, none, false⟩

/-- Same in-progress state for the `evaluator2.py` model. -/
def c1preSt2 : Ev2.St := fun n => if n = 1 then ⟨none, none, true⟩ else ⟨none, none, false⟩

/-- `Table{ a: Ref([Ref(["a"])]) }`: resolving the outer reference requires
unwrapping its key reference, whose resolution looks up `a` and lands back
on the outer reference while it is still in progress. -/
def c1tree : Ev1.Expr :=
  .table [Ev1.mkItem (.str "a") (.ref 1 [.ref 2 [.str "a"] .absolute] .absolute)]

/-- `Table{ a: Ref(["b"]), b: "1", c: Ref(["a"]) }` for `evaluator.py`:
resolving `c` stops at the entry value `Ref(["b"])` without unwrapping it. -/
def c2tree1 : Ev1.Expr :=
  .table [Ev1.mkItem (.str "a") (.ref 1 [.str "b"] .absolute),
    Ev1.mkItem (.str "b") (.str "1"),
    Ev1.mkItem (.str "c") (.ref 2 [.str "a"] .absolute)]

/-- The same tree for `evaluator2.py`. -/
def c2tree2 : Ev2.Expr :=
  .table [Ev2.mkItem (.str "a") (.ref 1 [.str "b"] .absolute),
    Ev2.mkItem (.str "b") (.str "1"),
    Ev2.mkItem (.str "c") (.ref 2 [.str "a"] .absolute)]

/-- The spec's missing-key example `Table{ a: "1" }` with the reference
`["b"]` embedded as a second entry, for `evaluator.py`. -/
def c3tree1 : Ev1.Expr :=
  .table [Ev1.mkItem (.str "a") (.str "1"),
    Ev1.mkItem (.str "q") (.ref 1 [.str "b"] .absolute)]

/-- The same missing-key tree for `evaluator2.py`. -/
def c3tree2 : Ev2.Expr :=
  .table [Ev2.mkItem (.str "a") (.str "1"),
    Ev2.mkItem (.str "q") (.ref 1 [.str "b"] .absolute)]

/-- `Table{ 1: "x", q: Ref([1]) }`: a lookup key and an entry key that both
unwrap to the integer `1`. -/
def c4tree : Ev1.Expr :=
  .table [Ev1.mkItem (.int 1) (.str "x"),
    Ev1.mkItem (.str "q") (.ref 1 [.int 1] .absolute)]

/-- `Table{ a: "1", a: "2", q: Ref(["a"]) }`: two entries whose keys unwrap
to the same string; document order decides. -/
def c4shadowTree : Ev1.Expr :=
  .table [Ev1.mkItem (.str "a") (.str "1"),
    Ev1.mkItem (.str "a") (.str "2"),
    Ev1.mkItem (.str "q") (.ref 1 [.str "a"] .absolute)]

/-- The shadowing tree for `evaluator2.py`: `Table{ a: "1", a: "2",
q: Ref(["a"]) }`. -/
def c4shadowTree2 : Ev2.Expr :=
  .table [Ev2.mkItem (.str "a") (.str "1"),
    Ev2.mkItem (.str "a") (.str "2"),
    Ev2.mkItem (.str "q") (.ref 1 [.str "a"] .absolute)]

/-- The spec's index-on-non-table example `Table{ a: "1" }` with the
reference `["a","c"]` embedded, for `evaluator.py`. -/
def c5tree1 : Ev1.Expr :=
  .table [Ev1.mkItem (.str "a") (.str "1"),
    Ev1.mkItem (.str "q") (.ref 1 [.str "a", .str "c"] .absolute)]

/-- The same index-on-non-table tree for `evaluator2.py`. -/
def c5tree2 : Ev2.Expr :=
  .table [Ev2.mkItem (.str "a") (.str "1"),
    Ev2.mkItem (.str "q") (.ref 1 [.str "a", .str "c"] .absolute)]

/-- `Table{ True: "x", b: "1", q: Ref(["b"]) }` for `evaluator.py`: the
first entry's key unwraps to an invalid key type (`Bool`), the lookup for
`"b"` should still find the second entry. -/
def c6tree1 : Ev1.Expr :=
  .table [Ev1.mkItem (.bool true) (.str "x"),
    Ev1.mkItem (.str "b") (.str "1"),
    Ev1.mkItem (.str "q") (.ref 1 [.str "b"] .absolute)]

/-- The same tree with an `Int`-keyed first entry for `evaluator2.py`
(`Int` unwraps fine but is an invalid key type there). -/
def c6tree2 : Ev2.Expr :=
  .table [Ev2.mkItem (.int 1) (.str "x"),
    Ev2.mkItem (.str "b") (.str "1"),
    Ev2.mkItem (.str "q") (.ref 1 [.str "b"] .absolute)]

/-- `Table{ Ref(["zz"]): "x", b: "1", q: Ref(["b"]) }` for `evaluator.py`:
the first sibling key is a reference whose own lookup raises `KeyError`,
which the scan's `except` clause does not catch. -/
def c6abortTree : Ev1.Expr :=
  .table [Ev1.mkItem (.ref 2 [.str "zz"] .absolute) (.str "x"),
    Ev1.mkItem (.str "b") (.str "1"),
    Ev1.mkItem (.str "q") (.ref 1 [.str "b"] .absolute)]

/-- A relative reference as the document root: its recorded lexical scope is
absent (the root is not a table). -/
def c7tree : Ev1.Expr := .ref 1 [.str "a"] .relative

/-- The spec's absolute-resolution example `Table{ a: Table{ c: "10" } }`
with the absolute reference `["a","c"]` embedded, for `evaluator2.py`. -/
def c7absTree : Ev2.Expr :=
  .table [Ev2.mkItem (.str "a") (.table [Ev2.mkItem (.str "c") (.str "10")]),
    Ev2.mkItem (.str "q") (.ref 1 [.str "a", .str "c"] .absolute)]

/-- `Table{ a: "1", q: Ref(["a"]) }`: a small tree whose evaluation
succeeds, used to witness idempotence, for `evaluator.py`. -/
def c8tree1 : Ev1.Expr :=
  .table [Ev1.mkItem (.str "a") (.str "1"),
    Ev1.mkItem (.str "q") (.ref 1 [.str "a"] .absolute)]

/-- The same tree for `evaluator2.py`. -/
def c8tree2 : Ev2.Expr :=
  .table [Ev2.mkItem (.str "a") (.str "1"),
    Ev2.mkItem (.str "q") (.ref 1 [.str "a"] .absolute)]

/-- The state produced by the first successful evaluation of `c8tree1`. -/
def c8st1 : Ev1.St :=
  match Ev1.evaluate c8tree1 32 Ev1.initState with
  | .ok _ st => st
  | _ => Ev1.initState

/-- The state produced by the first successful evaluation of `c8tree2`. -/
def c8st2 : Ev2.St :=
  match Ev2.evaluate c8tree2 32 Ev2.initState with
  | .ok _ st => st
  | _ => Ev2.initState

/-- The self-referential reference `Ref(["a"])` stored at entry `a` of
`c9tree`: after its own evaluation its `cache` is itself. -/
def c9ref : Ev2.Expr := .ref 1 [.str "a"] .absolute

/-- `Table{ a: Ref(["a"]), b: Ref(["a","x"]) }` for `evaluator2.py`:
evaluating `a` caches the reference onto itself, and evaluating `b` then
chases that cache in `_unwrap` forever. -/
def c9tree : Ev2.Expr :=
  .table [Ev2.mkItem (.str "a") c9ref,
    Ev2.mkItem (.str "b") (.ref 2 [.str "a", .str "x"] .absolute)]

/-- `Table{ True: Ref(["x"]) }`: the reference's first (and only)
key-segment scan runs with `item_key` still unbound, and the single entry's
key fails to unwrap and is skipped, so the no-match branch reads the
never-assigned local. -/
def c10unboundTree : Ev1.Expr :=
  .table [Ev1.mkItem (.bool true) (.ref 1 [.str "x"] .absolute)]

/-- `Table{ a: Table{}, q: Ref(["a","b"]) }`: the second key segment scans
an empty table.  No iteration of *that* scan assigns `item_key`, but the
first segment's scan already left `item_key = Str("a")` in the
function-scoped local, so the no-match branch reads that stale value. -/
def c10treeA : Ev1.Expr :=
  .table [Ev1.mkItem (.str "a") (.table []),
    Ev1.mkItem (.str "q") (.ref 1 [.str "a", .str "b"] .absolute)]

/-- `Table{ a: Table{ True: "x" }, q: Ref(["a","b"]) }`: like `c10treeA`,
but the second segment's table has one entry whose key fails to unwrap and
is skipped; again the stale `item_key = Str("a")` survives from the first
segment. -/
def c10treeB : Ev1.Expr :=
  .table [Ev1.mkItem (.str "a") (.table [Ev1.mkItem (.bool true) (.str "x")]),
    Ev1.mkItem (.str "q") (.ref 1 [.str "a", .str "b"] .absolute)]

/-- `Covers s t`: every reference flagged evaluated in `s` is flagged
evaluated in `t`.  Evaluation only ever sets this flag, so every run covers
its own start state. -/
def Ev1.Covers (s t : Ev1.St) : Prop :=
  ∀ id, (s id).evaluated = true → (t id).evaluated = true

/-- `Step s t`: `t` is reachable from `s` by evaluator execution — the
evaluated flags only grow and the `_parent` fields (written only by the
resolver) are untouched. -/
def Ev1.Step (s t : Ev1.St) : Prop :=
  Ev1.Covers s t ∧ ∀ id, (t id).parent = (s id).parent

/-- A run's outcome steps from its start state (trivially holds for a
timeout, which carries no state). -/
def Ev1.Res.steps (st : Ev1.St) : Ev1.Res α → Prop
  | .ok _ s => Ev1.Step st s
  | .err _ s => Ev1.Step st s
  | .timeout => True

/-- The last `_parent` value a write list assigns to `id`, if any. -/
def Ev1.lastWrite : List (Nat × Option Ev1.Expr) → Nat → Option (Option Ev1.Expr)
  | [], _ => none
  | (i, v) :: w, id =>
    match Ev1.lastWrite w id with
    | some x => some x
    | none => if i = id then some v else none

/-- `Covers` for the `evaluator2.py` model (see `Ev1.Covers`). -/
def Ev2.Covers (s t : Ev2.St) : Prop :=
  ∀ id, (s id).evaluated = true → (t id).evaluated = true

/-- `Step` for the `evaluator2.py` model (see `Ev1.Step`). -/
def Ev2.Step (s t : Ev2.St) : Prop :=
  Ev2.Covers s t ∧ ∀ id, (t id).parent = (s id).parent

/-- `Res.steps` for the `evaluator2.py` model (see `Ev1.Res.steps`). -/
def Ev2.Res.steps (st : Ev2.St) : Ev2.Res α → Prop
  | .ok _ s => Ev2.Step st s
  | .err _ s => Ev2.Step st s
  | .timeout => True

/-- The last `parent` value a write list assigns to `id`, if any. -/
def Ev2.lastWrite : List (Nat × Option Ev2.Expr) → Nat → Option (Option Ev2.Expr)
  | [], _ => none
  | (i, v) :: w, id =>
    match Ev2.lastWrite w id with
    | some x => some x
    | none => if i = id then some v else none

/-- Claim C1 (refuted by the code; the spec itself flags this source
behavior as a bug).  Neither evaluator fails with a cycle error on
re-entry: a reference whose `_evaluated`/`evaluated` flag is already set
returns silently with the state unchanged (first two conjuncts, at the
in-progress state `c1preSt1`/`c1preSt2`), and on the concrete re-entrant
tree `c1tree` the whole evaluation ends in
`RuntimeError("Failed to evaluate reference.")` raised downstream when the
silently returned reference's cache is still `None` — no `CycleError`
exists anywhere in either evaluator. -/
theorem c1_no_cycle_error :
    Ev1.evaluate_ref c1tree 8 1 [Ev1.Expr.str "a"] .absolute c1preSt1
      = .ok () c1preSt1
    ∧ Ev2.evaluate_ref c9tree 8 1 [Ev2.Expr.str "a"] .absolute c1preSt2
      = .ok () c1preSt2
    ∧ (Ev1.evaluate c1tree 64 Ev1.initState).errOf = some .runtimeFailedRef := by
  refine ⟨?_, ?_, ?_⟩
  · simp [Ev1.evaluate_ref, c1preSt1]
  · simp [Ev2.evaluate_ref, c1preSt2]
  · rfl

/-- Claim C2 (refuted by the code; the spec itself flags this source
inconsistency).  In both evaluators a reference's evaluation can succeed
while its cache stores another `Reference`: on `c2tree1`/`c2tree2`
(`Table{ a: Ref(["b"]), b: "1", c: Ref(["a"]) }`) evaluation raises no
error, yet the cache of `c`'s reference is the unresolved entry value
`Ref(["b"])`, not a terminal Scalar or Table. -/
theorem c2_cache_can_be_reference :
    (Ev1.evaluate c2tree1 64 Ev1.initState).errOf = none
    ∧ ((Ev1.evaluate c2tree1 64 Ev1.initState).stateD Ev1.initState 2).cache
      = some (.ref 1 [.str "b"] .absolute)
    ∧ (Ev2.evaluate c2tree2 64 Ev2.initState).errOf = none
    ∧ ((Ev2.evaluate c2tree2 64 Ev2.initState).stateD Ev2.initState 2).cache
      = some (.ref 1 [.str "b"] .absolute) := by
  exact ⟨rfl, rfl, rfl, rfl⟩

/-- Claim C3 (refuted by the code).  On the spec's missing-key example
(`Table{ a: "1" }`, reference `["b"]`): `evaluator.py` raises
`KeyError("Key not found.", key, item_key)` naming the unmatched key and
the *last scanned entry's key* (`"q"`), not the table searched; and
`evaluator2.py` raises no error at all — the unmatched segment leaves the
target unchanged, so the reference silently caches the entire starting
table. -/
theorem c3_missing_key_behavior :
    (Ev1.evaluate c3tree1 64 Ev1.initState).errOf
      = some (.keyError (.str "b") (.str "q"))
    ∧ (Ev2.evaluate c3tree2 64 Ev2.initState).errOf = none
    ∧ ((Ev2.evaluate c3tree2 64 Ev2.initState).stateD Ev2.initState 1).cache
      = some c3tree2 := by
  exact ⟨rfl, rfl, rfl⟩

/-- Claim C5 (refuted on `evaluator.py`).  On the spec's
index-on-non-table example (`Table{ a: "1" }`, reference `["a","c"]`):
`evaluator.py` raises no error — the Python `match` on the current target
has no case for a scalar, so the segment `"c"` is silently ignored and the
reference caches `"1"`; `evaluator2.py` raises
`TypeError("Expect table.")` as the claim states. -/
theorem c5_non_table_target :
    (Ev1.evaluate c5tree1 64 Ev1.initState).errOf = none
    ∧ ((Ev1.evaluate c5tree1 64 Ev1.initState).stateD Ev1.initState 1).cache
      = some (.str "1")
    ∧ (Ev2.evaluate c5tree2 64 Ev2.initState).errOf = some .expectTable := by
  exact ⟨rfl, rfl, rfl⟩

/-- Claim C10 (confirmed).  In `evaluator.py`, the local `item_key` is
scoped to the whole `_evaluate_ref` activation.  When a key-segment scan
ends with no match and no iteration of the activation has assigned
`item_key` — on `c10unboundTree`, the first segment's scan skips its only
entry because the `Bool` key fails to unwrap — the no-match branch
`raise KeyError("Key not found.", key, item_key)` reads the unassigned
local and crashes with `UnboundLocalError` instead of raising the intended
key-not-found error (1st conjunct).  When an earlier segment did assign
`item_key`, the same no-match lookups (an empty table on `c10treeA`, an
all-skipped table on `c10treeB`) instead raise `KeyError` naming the stale
sibling key `"a"` left over from the previous segment — still not the
intended error for the table actually searched (2nd and 3rd conjuncts). -/
theorem c10_unbound_item_key :
    (Ev1.evaluate c10unboundTree 64 Ev1.initState).errOf = some .unboundLocalItemKey
    ∧ (Ev1.evaluate c10treeA 64 Ev1.initState).errOf
      = some (.keyError (.str "b") (.str "a"))
    ∧ (Ev1.evaluate c10treeB 64 Ev1.initState).errOf
      = some (.keyError (.str "b") (.str "a")) := by
  exact ⟨rfl, rfl, rfl⟩

/-- Counterexample to claim C4: on `c4tree`, the lookup key unwraps to
`Int 1` and the first entry's key unwraps to the equal `Int 1`, yet
`evaluator.py` does not match it (its match test requires the entry key to
be a `Str`): the lookup fails with `KeyError` and the reference's cache
stays empty. -/
theorem c4_counterexample :
    (Ev1.evaluate c4tree 64 Ev1.initState).errOf
      = some (.keyError (.int 1) (.str "q"))
    ∧ ((Ev1.evaluate c4tree 64 Ev1.initState).stateD Ev1.initState 1).cache
      = none := by
  exact ⟨rfl, rfl⟩

/-- Counterexample to claim C6: on `c6tree2`, the first sibling entry's key
unwraps (successfully) to the invalid key type `Int`, and `evaluator2.py`
aborts the whole lookup with `TypeError("Expect string key for item.")`
instead of skipping the entry, so the later well-formed matching entry
`b: "1"` is never found and the reference's cache stays empty. -/
theorem c6_counterexample :
    (Ev2.evaluate c6tree2 64 Ev2.initState).errOf = some .expectStrItemKey
    ∧ ((Ev2.evaluate c6tree2 64 Ev2.initState).stateD Ev2.initState 1).cache
      = none := by
  exact ⟨rfl, rfl⟩

/-- Counterexample to claim C7: in `evaluator.py`, forcing a relative
reference whose recorded lexical scope is absent (`c7tree`, a relative
reference as a non-table root) raises no error at all: evaluation
completes, the reference is marked evaluated, and its cache is set to
`None`. -/
theorem c7_counterexample :
    (Ev1.evaluate c7tree 64 Ev1.initState).errOf = none
    ∧ ((Ev1.evaluate c7tree 64 Ev1.initState).stateD Ev1.initState 1).evaluated
      = true
    ∧ ((Ev1.evaluate c7tree 64 Ev1.initState).stateD Ev1.initState 1).cache
      = none := by
  exact ⟨rfl, rfl, rfl⟩

/-- Claim C4, amended.  In both evaluators the scan is first-match-wins
over entries whose keys unwrap to `Str`, compared by exact character
equality, with the earlier entry in document order shadowing later ones
and no cross-type equality: conjuncts 1-2 are the match/pass-over
equations of `evaluator.py`'s scan, conjuncts 3-5 its equality test,
conjuncts 6-7 the match/pass-over equations of `evaluator2.py`'s scan, and
the last four conjuncts show both evaluators resolving the duplicate-key
tree `c4shadowTree`/`c4shadowTree2` to the first entry's value.  But `Int`
keys never match as the claim asserts: in `evaluator.py` an entry key that
unwraps to an `Int` is passed over (5th conjunct: the source test requires
`isinstance(item_key, Str)`), so an Int-to-Int lookup fails with
`KeyError`; and in `evaluator2.py` a lookup key that unwraps to any
non-`Str` value raises `TypeError("Expect string key.")` before any scan
(8th conjunct). -/
theorem c4_first_match_amended :
    (∀ (root fuel : _) (key ik : Ev1.Expr) (item : Ev1.TableItem) rest ikvar st st',
      Ev1.evaluate_key root fuel item.key st = .ok ik st' →
      Ev1.keyMatches key ik = true →
      Ev1.scan_items root (fuel + 1) key (item :: rest) ikvar st
        = .ok (item.value, ik) st')
    ∧ (∀ (root fuel : _) (key ik : Ev1.Expr) (item : Ev1.TableItem) rest ikvar st st',
      Ev1.evaluate_key root fuel item.key st = .ok ik st' →
      Ev1.keyMatches key ik = false →
      Ev1.scan_items root (fuel + 1) key (item :: rest) ikvar st
        = Ev1.scan_items root fuel key rest (some ik) st')
    ∧ (∀ s1 s2, Ev1.keyMatches (.str s1) (.str s2) = (s1 = s2 : Bool))
    ∧ (∀ (n : Int) (s : String), Ev1.keyMatches (.int n) (.str s) = false)
    ∧ (∀ (key : Ev1.Expr) (n : Int), Ev1.keyMatches key (.int n) = false)
    ∧ (∀ (root : Ev2.Expr) (fuel : Nat) (s : String) (item : Ev2.TableItem) rest st st',
      Ev2.unwrap root fuel item.key st = .ok (.str s) st' →
      Ev2.scan_items root (fuel + 1) s (item :: rest) st = .ok (some item.value) st')
    ∧ (∀ (root : Ev2.Expr) (fuel : Nat) (s s2 : String) (item : Ev2.TableItem) rest st st',
      Ev2.unwrap root fuel item.key st = .ok (.str s2) st' →
      ¬ s = s2 →
      Ev2.scan_items root (fuel + 1) s (item :: rest) st
        = Ev2.scan_items root fuel s rest st')
    ∧ (∀ (root : Ev2.Expr) (fuel : Nat) (k : Ev2.Expr) ks curE curry kv st st1 st2,
      Ev2.unwrap root fuel curE st = .ok curry st1 →
      Ev2.unwrap root fuel k st1 = .ok kv st2 →
      (∀ s, kv ≠ .str s) →
      Ev2.evaluate_keys root (fuel + 1) (k :: ks) (some curE) st
        = .err .expectStrKey st2)
    ∧ (Ev1.evaluate c4shadowTree 64 Ev1.initState).errOf = none
    ∧ ((Ev1.evaluate c4shadowTree 64 Ev1.initState).stateD Ev1.initState 1).cache
      = some (.str "1")
    ∧ (Ev2.evaluate c4shadowTree2 64 Ev2.initState).errOf = none
    ∧ ((Ev2.evaluate c4shadowTree2 64 Ev2.initState).stateD Ev2.initState 1).cache
      = some (.str "1") := by
  refine ⟨?_, ?_, ?_, ?_, ?_, ?_, ?_, ?_, rfl, rfl, rfl, rfl⟩
  · intro root fuel key ik item rest ikvar st st' h hm
    simp only [Ev1.scan_items, h, hm, if_true]
  · intro root fuel key ik item rest ikvar st st' h hm
    simp only [Ev1.scan_items, h, hm, if_false, Bool.false_eq_true]
  · intro s1 s2
    rfl
  · intro n s
    rfl
  · intro key n
    cases key <;> rfl
  · intro root fuel s item rest st st' h
    simp [Ev2.scan_items, h]
  · intro root fuel s s2 item rest st st' h hne
    simp only [Ev2.scan_items, h]
    rw [if_neg hne]
  · intro root fuel k ks curE curry kv st st1 st2 h1 h2 hns
    simp only [Ev2.evaluate_keys, h1, h2]

/-- Witness for `c4_first_match_amended`: its hypothesis-bearing conjuncts
applied at concrete inputs — in `evaluator.py`, scanning `[a: "1", b: "2"]`
for `"b"` passes over the first entry and matches the second; likewise in
`evaluator2.py`; and an `evaluator2.py` segment whose key unwraps to
`Int 1` raises the string-key `TypeError`. -/
theorem c4_witness :
    Ev1.scan_items (.str "r") 5 (.str "b")
      [Ev1.mkItem (.str "a") (.str "1"), Ev1.mkItem (.str "b") (.str "2")]
      none Ev1.initState
      = Ev1.scan_items (.str "r") 4 (.str "b")
          [Ev1.mkItem (.str "b") (.str "2")] (some (.str "a")) Ev1.initState
    ∧ Ev1.scan_items (.str "r") 5 (.str "b")
        [Ev1.mkItem (.str "b") (.str "2")] (some (.str "a")) Ev1.initState
      = .ok (.str "2", .str "b") Ev1.initState
    ∧ Ev2.scan_items (.str "r") 5 "b"
        [Ev2.mkItem (.str "a") (.str "1"), Ev2.mkItem (.str "b") (.str "2")]
        Ev2.initState
      = Ev2.scan_items (.str "r") 4 "b"
          [Ev2.mkItem (.str "b") (.str "2")] Ev2.initState
    ∧ Ev2.scan_items (.str "r") 5 "b"
        [Ev2.mkItem (.str "b") (.str "2")] Ev2.initState
      = .ok (some (.str "2")) Ev2.initState
    ∧ Ev2.evaluate_keys (.str "r") 5 [.int 1] (some (.table [])) Ev2.initState
      = .err .expectStrKey Ev2.initState := by
  refine ⟨?_, ?_, ?_, ?_, ?_⟩
  · exact c4_first_match_amended.2.1 (.str "r") 4 (.str "b") (.str "a")
      (Ev1.mkItem (.str "a") (.str "1")) [Ev1.mkItem (.str "b") (.str "2")]
      none Ev1.initState Ev1.initState rfl rfl
  · exact c4_first_match_amended.1 (.str "r") 4 (.str "b") (.str "b")
      (Ev1.mkItem (.str "b") (.str "2")) [] (some (.str "a"))
      Ev1.initState Ev1.initState rfl rfl
  · exact c4_first_match_amended.2.2.2.2.2.2.1 (.str "r") 4 "b" "a"
      (Ev2.mkItem (.str "a") (.str "1")) [Ev2.mkItem (.str "b") (.str "2")]
      Ev2.initState Ev2.initState rfl (by decide)
  · exact c4_first_match_amended.2.2.2.2.2.1 (.str "r") 4 "b"
      (Ev2.mkItem (.str "b") (.str "2")) [] Ev2.initState Ev2.initState rfl
  · exact c4_first_match_amended.2.2.2.2.2.2.2.1 (.str "r") 4 (.int 1) []
      (.table []) (.table []) (.int 1) Ev2.initState Ev2.initState Ev2.initState
      rfl rfl (fun s hh => by cases hh)

/-- Claim C6, amended.  Skip-and-continue holds only for the exception
classes each scan's `except` clause names.  In `evaluator.py` an entry
whose key unwrap raises `RuntimeError` or `TypeError` (a cyclic or
unresolved reference, an invalid key type, or a nested
`NotImplementedError`) is skipped and the scan continues with the remaining
entries (1st conjunct); in `evaluator2.py` only `RuntimeError` is skipped
(2nd conjunct).  On `c6tree1` a `Bool`-keyed sibling is skipped and the
later matching entry is still found (3rd and 4th conjuncts).  But a
sibling-key failure can abort the whole lookup: in `evaluator.py` a sibling
key whose own resolution raises `KeyError` propagates it (last conjunct;
and in `evaluator2.py` a sibling key unwrapping to a non-`Str` aborts — see
the counterexample). -/
theorem c6_skip_amended :
    (∀ (root fuel : _) (key : Ev1.Expr) (item : Ev1.TableItem) rest ikvar st e st',
      Ev1.evaluate_key root fuel item.key st = .err e st' →
      e.caught = true →
      Ev1.scan_items root (fuel + 1) key (item :: rest) ikvar st
        = Ev1.scan_items root fuel key rest ikvar st')
    ∧ (∀ (root fuel : _) (s : String) (item : Ev2.TableItem) rest st st',
      Ev2.unwrap root fuel item.key st = .err .runtimeFailedRef st' →
      Ev2.scan_items root (fuel + 1) s (item :: rest) st
        = Ev2.scan_items root fuel s rest st')
    ∧ (Ev1.evaluate c6tree1 64 Ev1.initState).errOf = none
    ∧ ((Ev1.evaluate c6tree1 64 Ev1.initState).stateD Ev1.initState 1).cache
      = some (.str "1")
    ∧ (Ev1.evaluate c6abortTree 64 Ev1.initState).errOf
      = some (.keyError (.str "zz") (.str "q")) := by
  refine ⟨?_, ?_, rfl, rfl, rfl⟩
  · intro root fuel key item rest ikvar st e st' h hc
    simp only [Ev1.scan_items, h, hc, if_true]
  · intro root fuel s item rest st st' h
    simp only [Ev2.scan_items, h, if_true]

/-- Witness for `c6_skip_amended`: both skip equations applied at concrete
inputs — a `Bool`-keyed entry is skipped by `evaluator.py`'s scan, and an
entry whose key is an unresolved reference is skipped by `evaluator2.py`'s
scan. -/
theorem c6_witness :
    Ev1.scan_items (.str "r") 5 (.str "b")
      [Ev1.mkItem (.bool true) (.str "x"), Ev1.mkItem (.str "b") (.str "2")]
      none Ev1.initState
      = Ev1.scan_items (.str "r") 4 (.str "b")
          [Ev1.mkItem (.str "b") (.str "2")] none Ev1.initState
    ∧ Ev2.scan_items (.str "r") 5 "b"
        [Ev2.mkItem (.ref 1 [] .absolute) (.str "x"), Ev2.mkItem (.str "b") (.str "2")]
        c1preSt2
      = Ev2.scan_items (.str "r") 4 "b"
          [Ev2.mkItem (.str "b") (.str "2")] c1preSt2 := by
  constructor
  · exact c6_skip_amended.1 (.str "r") 4 (.str "b")
      (Ev1.mkItem (.bool true) (.str "x")) [Ev1.mkItem (.str "b") (.str "2")]
      none Ev1.initState .typeKeyKind Ev1.initState rfl rfl
  · exact c6_skip_amended.2.1 (.str "r") 4 "b"
      (Ev2.mkItem (.ref 1 [] .absolute) (.str "x")) [Ev2.mkItem (.str "b") (.str "2")]
      c1preSt2 c1preSt2 rfl

/-- Claim C7, amended.  In `evaluator2.py` a relative reference whose
recorded scope is absent fails on its first key segment with the dedicated
check `TypeError("NONE!")` (the code's stand-in for a scope error; the
first conjunct also records that the in-progress flag set before the raise
persists); but in `evaluator.py` no error is raised at all — the segments
fall through and the reference caches `None` (see the counterexample).  A
reference with modifier `Absolute` starts at the document root in both:
the spec's absolute-resolution example resolves through the root to `"10"`
(last conjuncts). -/
theorem c7_scope_amended :
    (∀ (root : Ev2.Expr) fuel id (k : Ev2.Expr) ks st,
      (st id).evaluated = false →
      (st id).parent = none →
      Ev2.evaluate_ref root (fuel + 2) id (k :: ks) .relative st
        = .err .typeNone (Ev2.setRef st id ⟨none, (st id).cache, true⟩))
    ∧ (Ev2.evaluate c7absTree 64 Ev2.initState).errOf = none
    ∧ ((Ev2.evaluate c7absTree 64 Ev2.initState).stateD Ev2.initState 1).cache
      = some (.str "10") := by
  refine ⟨?_, rfl, rfl⟩
  intro root fuel id k ks st he hp
  simp only [Ev2.evaluate_ref, he, Bool.false_eq_true, if_false]
  simp only [Ev2.setRef, Ev2.evaluate_keys, if_pos, hp]

/-- Witness for `c7_scope_amended`: its first conjunct applied at a concrete
relative reference with no recorded scope. -/
theorem c7_witness :
    Ev2.evaluate_ref (.table []) 6 3 [.str "a"] .relative Ev2.initState
      = .err .typeNone (Ev2.setRef Ev2.initState 3 ⟨none, none, true⟩) :=
  c7_scope_amended.1 (.table []) 4 3 (.str "a") [] Ev2.initState rfl rfl

/-- A benign step of `_unwrap` in `evaluator2.py`: a `Table` is already
unwrapped. -/
theorem ev2_unwrap_table (root : Ev2.Expr) (fuel : Nat) (items : List Ev2.TableItem)
    (st : Ev2.St) :
    Ev2.unwrap root (fuel + 1) (.table items) st = .ok (.table items) st := rfl

/-- A benign step of `_unwrap` in `evaluator2.py`: a `Str` is already
unwrapped. -/
theorem ev2_unwrap_str (root : Ev2.Expr) (fuel : Nat) (s : String) (st : Ev2.St) :
    Ev2.unwrap root (fuel + 1) (.str s) st = .ok (.str s) st := rfl

/-- Once the reference with identity `1` is flagged evaluated and its cache
is itself (the situation `c9tree` produces), the `while` loop of `_unwrap`
chases that cache forever: the fueled model times out at every fuel. -/
theorem c9_unwrap_loop (root : Ev2.Expr) : ∀ (fuel : Nat) (st : Ev2.St),
    (st 1).evaluated = true →
    (st 1).cache = some (.ref 1 [.str "a"] .absolute) →
    Ev2.unwrap root fuel (.ref 1 [.str "a"] .absolute) st = .timeout := by
  intro fuel
  induction fuel with
  | zero => intro st h1 h2; rfl
  | succ f ih =>
    intro st h1 h2
    rcases f with _ | f1
    · rfl
    rcases f1 with _ | g
    · rfl
    show Ev2.unwrap root (g + 1 + 1 + 1) (.ref 1 [.str "a"] .absolute) st = .timeout
    simp only [Ev2.unwrap, Ev2.evaluate_expr, Ev2.evaluate_ref, h1, if_true, h2]
    exact ih st h1 h2

/-- Claim C9 (refuted by the code).  Neither evaluator has a recursion cap
or any `DepthExceeded` error; on `c9tree` the reference `a` caches itself,
and forcing `b` then chases that cache in `_unwrap` forever: the fueled
model of `evaluator2.py` times out at every fuel, i.e. the Python loops
without terminating. -/
theorem c9_divergence : ∀ fuel : Nat, Ev2.evaluate c9tree fuel Ev2.initState = .timeout := by
  intro fuel
  rcases Nat.lt_or_ge fuel 8 with h | h
  · interval_cases fuel <;> rfl
  · obtain ⟨f, rfl⟩ : ∃ f, fuel = f + 1 + 1 + 1 + 1 + 1 + 1 + 1 + 1 :=
      ⟨fuel - 8, by omega⟩
    simp only [c9tree, c9ref, Ev2.mkItem, Ev2.initState, Ev2.evaluate, Ev2.resolve,
      Ev2.resolveWrites, Ev2.resolveWritesItems, Ev2.applyWrites, Ev2.setRef,
      Ev2.evaluate_expr, Ev2.evaluate_table, Ev2.evaluate_ref, Ev2.evaluate_keys,
      Ev2.scan_items, ev2_unwrap_table, ev2_unwrap_str, Ev2.TableItem.key,
      Ev2.TableItem.value, c9_unwrap_loop, reduceIte, Nat.reduceEqDiff, String.reduceEq, Bool.false_eq_true, eq_self_iff_true, if_true, if_false]

/-- `Covers` is transitive. -/
theorem ev1_covers_trans {s t u : Ev1.St} (a : Ev1.Covers s t) (b : Ev1.Covers t u) :
    Ev1.Covers s u := fun id h => b id (a id h)

/-- `Step` is reflexive. -/
theorem ev1_step_rfl (s : Ev1.St) : Ev1.Step s s :=
  ⟨fun _ h => h, fun _ => rfl⟩

/-- `Step` is transitive. -/
theorem ev1_step_trans {s t u : Ev1.St} (a : Ev1.Step s t) (b : Ev1.Step t u) :
    Ev1.Step s u :=
  ⟨ev1_covers_trans a.1 b.1, fun id => (b.2 id).trans (a.2 id)⟩

/-- Setting a reference's in-progress flag is an evaluator step. -/
theorem ev1_step_set_true (st : Ev1.St) (id : Nat) :
    Ev1.Step st (Ev1.setRef st id ⟨(st id).parent, (st id).cache, true⟩) := by
  constructor
  · intro j h
    simp only [Ev1.setRef]
    by_cases hj : j = id
    · simp [hj]
    · simp [hj, h]
  · intro j
    simp only [Ev1.setRef]
    by_cases hj : j = id
    · simp [hj]
    · simp [hj]

/-- Writing a reference's cache (keeping its flag and parent) is an
evaluator step. -/
theorem ev1_step_set_cache (st : Ev1.St) (id : Nat) (c : Option Ev1.Expr) :
    Ev1.Step st (Ev1.setRef st id ⟨(st id).parent, c, (st id).evaluated⟩) := by
  constructor
  · intro j h
    simp only [Ev1.setRef]
    by_cases hj : j = id
    · simp [hj]; rw [hj] at h; exact h
    · simp [hj, h]
  · intro j
    simp only [Ev1.setRef]
    by_cases hj : j = id
    · simp [hj]
    · simp [hj]

/-- Replaying a write list only rewrites `_parent` fields, and the value an
identity ends up with is its last write (or its old value if never
written). -/
theorem ev1_applyWrites_char :
    ∀ (w : List (Nat × Option Ev1.Expr)) (st : Ev1.St) (id : Nat),
      Ev1.applyWrites w st id =
        match Ev1.lastWrite w id with
        | some v => ⟨v, (st id).cache, (st id).evaluated⟩
        | none => st id := by
  intro w
  induction w with
  | nil => intro st id; rfl
  | cons p w ih =>
    obtain ⟨i, v⟩ := p
    intro st id
    show Ev1.applyWrites w (Ev1.setRef st i ⟨v, (st i).cache, (st i).evaluated⟩) id = _
    rw [ih]
    rcases hl : Ev1.lastWrite w id with _ | x
    · simp only [Ev1.lastWrite, hl, Ev1.setRef]
      by_cases hij : i = id
      · subst hij
        simp
      · have hji : ¬ id = i := fun hh => hij hh.symm
        simp [hij, hji]
    · simp only [Ev1.lastWrite, hl, Ev1.setRef]
      by_cases hij : id = i
      · subst hij
        simp
      · simp [hij]

/-- If a state already carries the `_parent` assignments that resolving a
tree performs (it does after any evaluator run that followed a resolve),
resolving again is the identity. -/
theorem ev1_resolve_fixed (p : Option Ev1.Expr) (e : Ev1.Expr) (st0 st1 : Ev1.St)
    (h : ∀ id, (st1 id).parent = ((Ev1.resolve p e st0) id).parent) :
    Ev1.resolve p e st1 = st1 := by
  funext id
  have hchar := ev1_applyWrites_char (Ev1.resolveWrites p e) st1 id
  have hchar0 := ev1_applyWrites_char (Ev1.resolveWrites p e) st0 id
  rcases hl : Ev1.lastWrite (Ev1.resolveWrites p e) id with _ | v
  · simp only [hl] at hchar
    exact hchar
  · simp only [hl] at hchar hchar0
    have hp := h id
    rw [show Ev1.resolve p e st0 id = Ev1.applyWrites (Ev1.resolveWrites p e) st0 id from rfl,
      hchar0] at hp
    have hv : (st1 id).parent = v := hp
    show Ev1.applyWrites (Ev1.resolveWrites p e) st1 id = st1 id
    rw [hchar, ← hv]

/-- Absorption: a result that steps from a later state also steps from an
earlier one. -/
theorem ev1_steps_before {st s : Ev1.St} {r : Ev1.Res α} (h1 : Ev1.Step st s)
    (h2 : r.steps s) : r.steps st := by
  cases r with
  | ok a s2 => exact ev1_step_trans h1 h2
  | err e s2 => exact ev1_step_trans h1 h2
  | timeout => trivial

/-- Every `evaluator.py` run only sets evaluated flags and cache fields:
the final state of any call steps from its start state. -/
theorem ev1_mono : ∀ fuel : Nat,
    (∀ (root e : Ev1.Expr) (st : Ev1.St), (Ev1.evaluate_expr root fuel e st).steps st)
    ∧ (∀ (root : Ev1.Expr) (items : List Ev1.TableItem) (st : Ev1.St),
        (Ev1.evaluate_table root fuel items st).steps st)
    ∧ (∀ (root : Ev1.Expr) (id : Nat) (keys : List Ev1.Expr) (m : Ev1.RefModifier)
        (st : Ev1.St), (Ev1.evaluate_ref root fuel id keys m st).steps st)
    ∧ (∀ (root : Ev1.Expr) (keys : List Ev1.Expr) (cur ik : Option Ev1.Expr)
        (st : Ev1.St), (Ev1.evaluate_keys root fuel keys cur ik st).steps st)
    ∧ (∀ (root key : Ev1.Expr) (items : List Ev1.TableItem) (ik : Option Ev1.Expr)
        (st : Ev1.St), (Ev1.scan_items root fuel key items ik st).steps st)
    ∧ (∀ (root k : Ev1.Expr) (st : Ev1.St), (Ev1.evaluate_key root fuel k st).steps st) := by
  intro fuel
  induction fuel with
  | zero =>
    refine ⟨?_, ?_, ?_, ?_, ?_, ?_⟩ <;> intros <;> exact trivial
  | succ f ih =>
    obtain ⟨ihE, ihT, ihR, ihK, ihS, ihKey⟩ := ih
    refine ⟨?_, ?_, ?_, ?_, ?_, ?_⟩
    · -- evaluate_expr
      intro root e st
      cases e with
      | str v => exact ev1_step_rfl st
      | bool v => exact ev1_step_rfl st
      | int v => exact ev1_step_rfl st
      | float v => exact ev1_step_rfl st
      | ref id keys m => exact ihR root id keys m st
      | unary op r => exact ev1_step_rfl st
      | binary l op r => exact ev1_step_rfl st
      | array items => exact ev1_step_rfl st
      | table items => exact ihT root items st
    · -- evaluate_table
      intro root items st
      cases items with
      | nil => exact ev1_step_rfl st
      | cons item rest =>
        simp only [Ev1.evaluate_table]
        split
        · next u1 s1 heq1 =>
          have h1 : Ev1.Step st s1 := by
            have h := ihE root item.key st
            rw [heq1] at h
            exact h
          split
          · next u2 s2 heq2 =>
            have h2 : Ev1.Step s1 s2 := by
              have h := ihE root item.value s1
              rw [heq2] at h
              exact h
            exact ev1_steps_before (ev1_step_trans h1 h2) (ihT root rest s2)
          · next e2 s2 heq2 =>
            have h2 : Ev1.Step s1 s2 := by
              have h := ihE root item.value s1
              rw [heq2] at h
              exact h
            exact ev1_step_trans h1 h2
          · trivial
        · next e1 s1 heq1 =>
          have h1 : Ev1.Step st s1 := by
            have h := ihE root item.key st
            rw [heq1] at h
            exact h
          exact h1
        · trivial
    · -- evaluate_ref
      intro root id keys m st
      simp only [Ev1.evaluate_ref]
      split
      · exact ev1_step_rfl st
      · rcases m with _ | _
        · dsimp only
          split
          · next cur2 st2 heq =>
            have h := ihK root keys (some root) none
              (Ev1.setRef st id ⟨(st id).parent, (st id).cache, true⟩)
            rw [heq] at h
            exact ev1_step_trans (ev1_step_trans (ev1_step_set_true st id) h)
              (ev1_step_set_cache st2 id cur2)
          · next e2 st2 heq =>
            have h := ihK root keys (some root) none
              (Ev1.setRef st id ⟨(st id).parent, (st id).cache, true⟩)
            rw [heq] at h
            exact ev1_step_trans (ev1_step_set_true st id) h
          · trivial
        · dsimp only
          split
          · next cur2 st2 heq =>
            have h := ihK root keys
              ((Ev1.setRef st id ⟨(st id).parent, (st id).cache, true⟩ id).parent) none
              (Ev1.setRef st id ⟨(st id).parent, (st id).cache, true⟩)
            rw [heq] at h
            exact ev1_step_trans (ev1_step_trans (ev1_step_set_true st id) h)
              (ev1_step_set_cache st2 id cur2)
          · next e2 st2 heq =>
            have h := ihK root keys
              ((Ev1.setRef st id ⟨(st id).parent, (st id).cache, true⟩ id).parent) none
              (Ev1.setRef st id ⟨(st id).parent, (st id).cache, true⟩)
            rw [heq] at h
            exact ev1_step_trans (ev1_step_set_true st id) h
          · trivial
    · -- evaluate_keys
      intro root keys cur ik st
      cases keys with
      | nil => exact ev1_step_rfl st
      | cons k ks =>
        simp only [Ev1.evaluate_keys]
        split
        · next kv s1 heq1 =>
          have h1 : Ev1.Step st s1 := by
            have h := ihKey root k st
            rw [heq1] at h
            exact h
          split
          · exact h1
          · next items =>
            split
            · next v ikv s2 heq2 =>
              have h := ihS root kv items ik s1
              rw [heq2] at h
              exact ev1_steps_before (ev1_step_trans h1 h)
                (ihK root ks (some v) (some ikv) s2)
            · next e2 s2 heq2 =>
              have h := ihS root kv items ik s1
              rw [heq2] at h
              exact ev1_step_trans h1 h
            · trivial
          · -- fall-through
            exact ev1_steps_before h1 (ihK root ks cur ik s1)
        · next e1 s1 heq1 =>
          have h1 : Ev1.Step st s1 := by
            have h := ihKey root k st
            rw [heq1] at h
            exact h
          exact h1
        · trivial
    · -- scan_items
      intro root key items ik st
      cases items with
      | nil =>
        simp only [Ev1.scan_items]
        split
        · exact ev1_step_rfl st
        · exact ev1_step_rfl st
      | cons item rest =>
        simp only [Ev1.scan_items]
        split
        · next ikv s1 heq1 =>
          have h1 : Ev1.Step st s1 := by
            have h := ihKey root item.key st
            rw [heq1] at h
            exact h
          split
          · exact h1
          · exact ev1_steps_before h1 (ihS root key rest (some ikv) s1)
        · next e1 s1 heq1 =>
          have h1 : Ev1.Step st s1 := by
            have h := ihKey root item.key st
            rw [heq1] at h
            exact h
          split
          · exact ev1_steps_before h1 (ihS root key rest ik s1)
          · exact h1
        · trivial
    · -- evaluate_key
      intro root k st
      cases k with
      | str v => exact ev1_step_rfl st
      | bool v => exact ev1_step_rfl st
      | int v => exact ev1_step_rfl st
      | float v => exact ev1_step_rfl st
      | ref id keys m =>
        simp only [Ev1.evaluate_key]
        split
        · next u1 s1 heq1 =>
          have h1 : Ev1.Step st s1 := by
            have h := ihE root (.ref id keys m) st
            rw [heq1] at h
            exact h
          split
          · exact h1
          · next c heq2 => exact ev1_steps_before h1 (ihKey root c s1)
        · next e1 s1 heq1 =>
          have h1 : Ev1.Step st s1 := by
            have h := ihE root (.ref id keys m) st
            rw [heq1] at h
            exact h
          exact h1
        · trivial
      | unary op r => exact ev1_step_rfl st
      | binary l op r => exact ev1_step_rfl st
      | array items => exact ev1_step_rfl st
      | table items => exact ev1_step_rfl st

/-- A successful `_evaluate_ref` leaves the reference's evaluated flag set. -/
theorem ev1_ref_sets_flag {root : Ev1.Expr} {fuel id : Nat} {keys : List Ev1.Expr}
    {m : Ev1.RefModifier} {st st' : Ev1.St} {u : Unit}
    (h : Ev1.evaluate_ref root fuel id keys m st = .ok u st') :
    (st' id).evaluated = true := by
  rcases fuel with _ | f
  · exact absurd h (by simp [Ev1.evaluate_ref])
  · rw [Ev1.evaluate_ref] at h
    by_cases hev : (st id).evaluated = true
    · rw [if_pos hev] at h
      cases h
      exact hev
    · rw [if_neg hev] at h
      dsimp only at h
      rcases m with _ | _
      · dsimp only at h
        rcases hks : Ev1.evaluate_keys root f keys (some root) none
            (Ev1.setRef st id ⟨(st id).parent, (st id).cache, true⟩) with
          ⟨cur, st2⟩ | ⟨e2, st2⟩ | _ <;> rw [hks] at h <;> cases h
        have h2 := (ev1_mono f).2.2.2.1 root keys (some root) none
          (Ev1.setRef st id ⟨(st id).parent, (st id).cache, true⟩)
        rw [hks] at h2
        have hcov := h2.1 id (by simp [Ev1.setRef])
        simp [Ev1.setRef, hcov]
      · dsimp only at h
        rcases hks : Ev1.evaluate_keys root f keys
            ((Ev1.setRef st id ⟨(st id).parent, (st id).cache, true⟩ id).parent) none
            (Ev1.setRef st id ⟨(st id).parent, (st id).cache, true⟩) with
          ⟨cur, st2⟩ | ⟨e2, st2⟩ | _ <;> rw [hks] at h <;> cases h
        have h2 := (ev1_mono f).2.2.2.1 root keys
          ((Ev1.setRef st id ⟨(st id).parent, (st id).cache, true⟩ id).parent) none
          (Ev1.setRef st id ⟨(st id).parent, (st id).cache, true⟩)
        rw [hks] at h2
        have hcov := h2.1 id (by simp [Ev1.setRef])
        simp [Ev1.setRef, hcov]

/-- Second-run lemma for `evaluator.py`: a successful traversal leaves every
reference it visits flagged, so running the same traversal again from any
state that keeps those flags (the final state itself in particular) succeeds
without changing the state — every reference hot-exits. -/
theorem ev1_idem : ∀ fuel : Nat,
    (∀ (root e : Ev1.Expr) (st : Ev1.St) (u : Unit) (st' : Ev1.St),
      Ev1.evaluate_expr root fuel e st = .ok u st' →
      ∀ t, Ev1.Covers st' t → Ev1.evaluate_expr root fuel e t = .ok u t)
    ∧ (∀ (root : Ev1.Expr) (items : List Ev1.TableItem) (st : Ev1.St) (u : Unit)
        (st' : Ev1.St),
      Ev1.evaluate_table root fuel items st = .ok u st' →
      ∀ t, Ev1.Covers st' t → Ev1.evaluate_table root fuel items t = .ok u t) := by
  intro fuel
  induction fuel with
  | zero =>
    refine ⟨?_, ?_⟩ <;>
      (intro root x st u st' h t hc;
       exact absurd h (by simp [Ev1.evaluate_expr, Ev1.evaluate_table]))
  | succ f ih =>
    obtain ⟨ihE, ihT⟩ := ih
    refine ⟨?_, ?_⟩
    · intro root e st u st' h t hc
      cases e with
      | str v =>
        simp only [Ev1.evaluate_expr, Ev1.Res.ok.injEq] at h
        obtain ⟨-, rfl⟩ := h
        cases u
        rfl
      | bool v =>
        simp only [Ev1.evaluate_expr, Ev1.Res.ok.injEq] at h
        obtain ⟨-, rfl⟩ := h
        cases u
        rfl
      | int v =>
        simp only [Ev1.evaluate_expr, Ev1.Res.ok.injEq] at h
        obtain ⟨-, rfl⟩ := h
        cases u
        rfl
      | float v =>
        simp only [Ev1.evaluate_expr, Ev1.Res.ok.injEq] at h
        obtain ⟨-, rfl⟩ := h
        cases u
        rfl
      | unary op r => simp [Ev1.evaluate_expr] at h
      | binary l op r => simp [Ev1.evaluate_expr] at h
      | array xs => simp [Ev1.evaluate_expr] at h
      | table items =>
        simp only [Ev1.evaluate_expr] at h ⊢
        exact ihT root items st u st' h t hc
      | ref id keys m =>
        simp only [Ev1.evaluate_expr] at h
        rcases f with _ | g
        · exact absurd h (by simp [Ev1.evaluate_ref])
        · have hflag := ev1_ref_sets_flag h
          have ht : (t id).evaluated = true := hc id hflag
          cases u
          simp only [Ev1.evaluate_expr, Ev1.evaluate_ref, ht, if_true]
    · intro root items st u st' h t hc
      cases items with
      | nil =>
        simp only [Ev1.evaluate_table, Ev1.Res.ok.injEq] at h
        obtain ⟨-, rfl⟩ := h
        cases u
        rfl
      | cons item rest =>
        simp only [Ev1.evaluate_table] at h
        rcases hk : Ev1.evaluate_expr root f item.key st with ⟨u1, s1⟩ | ⟨e1, s1⟩ | _ <;>
          simp only [hk] at h
        · rcases hv : Ev1.evaluate_expr root f item.value s1 with ⟨u2, s2⟩ | ⟨e2, s2⟩ | _ <;>
            simp only [hv] at h
          · have m1 := (ev1_mono f).1 root item.value s1
            rw [hv] at m1
            have m2 := (ev1_mono f).2.1 root rest s2
            rw [h] at m2
            have c1 : Ev1.Covers s1 t :=
              ev1_covers_trans m1.1 (ev1_covers_trans m2.1 hc)
            have c2 : Ev1.Covers s2 t := ev1_covers_trans m2.1 hc
            cases u1
            cases u2
            have hk2 := ihE root item.key st () s1 hk t c1
            have hv2 := ihE root item.value s1 () s2 hv t c2
            have ht2 := ihT root rest s2 u st' h t hc
            simp only [Ev1.evaluate_table, hk2, hv2, ht2]
          · exact absurd h (by simp)
          · exact absurd h (by simp)
        · exact absurd h (by simp)
        · exact absurd h (by simp)

/-- Re-running `evaluate` of `src/evaluator.py` after a successful run is a
no-op: the resolver rewrites the same `_parent` values and every reference
hot-exits, so the result and the state are unchanged. -/
theorem ev1_second_run (root : Ev1.Expr) (fuel : Nat) (st0 : Ev1.St) (r : Ev1.Expr)
    (st1 : Ev1.St) (h : Ev1.evaluate root fuel st0 = .ok r st1) :
    Ev1.evaluate root fuel st1 = .ok r st1 := by
  simp only [Ev1.evaluate] at h ⊢
  rcases he : Ev1.evaluate_expr root fuel root
      (Ev1.resolve (Ev1.parentInit root) root st0) with ⟨u, s⟩ | ⟨e1, s⟩ | _ <;>
    simp only [he] at h
  · injection h with hr hs
    subst hr
    subst hs
    have hm := (ev1_mono fuel).1 root root (Ev1.resolve (Ev1.parentInit root) root st0)
    rw [he] at hm
    have hfix := ev1_resolve_fixed (Ev1.parentInit root) root st0 s hm.2
    have hrun := (ev1_idem fuel).1 root root
      (Ev1.resolve (Ev1.parentInit root) root st0) u s he s (fun _ hh => hh)
    rw [hfix, hrun]
  · exact absurd h (by simp)
  · exact absurd h (by simp)

/-- `Covers` is transitive (`evaluator2.py` model). -/
theorem ev2_covers_trans {s t u : Ev2.St} (a : Ev2.Covers s t) (b : Ev2.Covers t u) :
    Ev2.Covers s u := fun id h => b id (a id h)

/-- `Step` is reflexive (`evaluator2.py` model). -/
theorem ev2_step_rfl (s : Ev2.St) : Ev2.Step s s :=
  ⟨fun _ h => h, fun _ => rfl⟩

/-- `Step` is transitive (`evaluator2.py` model). -/
theorem ev2_step_trans {s t u : Ev2.St} (a : Ev2.Step s t) (b : Ev2.Step t u) :
    Ev2.Step s u :=
  ⟨ev2_covers_trans a.1 b.1, fun id => (b.2 id).trans (a.2 id)⟩

/-- Setting a reference's in-progress flag is an evaluator step
(`evaluator2.py` model). -/
theorem ev2_step_set_true (st : Ev2.St) (id : Nat) :
    Ev2.Step st (Ev2.setRef st id ⟨(st id).parent, (st id).cache, true⟩) := by
  constructor
  · intro j h
    simp only [Ev2.setRef]
    by_cases hj : j = id
    · simp [hj]
    · simp [hj, h]
  · intro j
    simp only [Ev2.setRef]
    by_cases hj : j = id
    · simp [hj]
    · simp [hj]

/-- Writing a reference's cache is an evaluator step (`evaluator2.py`
model). -/
theorem ev2_step_set_cache (st : Ev2.St) (id : Nat) (c : Option Ev2.Expr) :
    Ev2.Step st (Ev2.setRef st id ⟨(st id).parent, c, (st id).evaluated⟩) := by
  constructor
  · intro j h
    simp only [Ev2.setRef]
    by_cases hj : j = id
    · simp [hj]; rw [hj] at h; exact h
    · simp [hj, h]
  · intro j
    simp only [Ev2.setRef]
    by_cases hj : j = id
    · simp [hj]
    · simp [hj]

/-- Absorption: a result that steps from a later state also steps from an
earlier one (`evaluator2.py` model). -/
theorem ev2_steps_before {st s : Ev2.St} {r : Ev2.Res α} (h1 : Ev2.Step st s)
    (h2 : r.steps s) : r.steps st := by
  cases r with
  | ok a s2 => exact ev2_step_trans h1 h2
  | err e s2 => exact ev2_step_trans h1 h2
  | timeout => trivial

/-- Write-list replay characterization (`evaluator2.py` model; see
`ev1_applyWrites_char`). -/
theorem ev2_applyWrites_char :
    ∀ (w : List (Nat × Option Ev2.Expr)) (st : Ev2.St) (id : Nat),
      Ev2.applyWrites w st id =
        match Ev2.lastWrite w id with
        | some v => ⟨v, (st id).cache, (st id).evaluated⟩
        | none => st id := by
  intro w
  induction w with
  | nil => intro st id; rfl
  | cons p w ih =>
    obtain ⟨i, v⟩ := p
    intro st id
    show Ev2.applyWrites w (Ev2.setRef st i ⟨v, (st i).cache, (st i).evaluated⟩) id = _
    rw [ih]
    rcases hl : Ev2.lastWrite w id with _ | x
    · simp only [Ev2.lastWrite, hl, Ev2.setRef]
      by_cases hij : i = id
      · subst hij
        simp
      · have hji : ¬ id = i := fun hh => hij hh.symm
        simp [hij, hji]
    · simp only [Ev2.lastWrite, hl, Ev2.setRef]
      by_cases hij : id = i
      · subst hij
        simp
      · simp [hij]

/-- Re-resolving a state that already carries the resolver's `parent`
assignments is the identity (`evaluator2.py` model). -/
theorem ev2_resolve_fixed (p : Option Ev2.Expr) (e : Ev2.Expr) (st0 st1 : Ev2.St)
    (h : ∀ id, (st1 id).parent = ((Ev2.resolve p e st0) id).parent) :
    Ev2.resolve p e st1 = st1 := by
  funext id
  have hchar := ev2_applyWrites_char (Ev2.resolveWrites p e) st1 id
  have hchar0 := ev2_applyWrites_char (Ev2.resolveWrites p e) st0 id
  rcases hl : Ev2.lastWrite (Ev2.resolveWrites p e) id with _ | v
  · simp only [hl] at hchar
    exact hchar
  · simp only [hl] at hchar hchar0
    have hp := h id
    rw [show Ev2.resolve p e st0 id = Ev2.applyWrites (Ev2.resolveWrites p e) st0 id from rfl,
      hchar0] at hp
    have hv : (st1 id).parent = v := hp
    show Ev2.applyWrites (Ev2.resolveWrites p e) st1 id = st1 id
    rw [hchar, ← hv]

/-- Every `evaluator2.py` run only sets evaluated flags and cache fields:
the final state of any call steps from its start state. -/
theorem ev2_mono : ∀ fuel : Nat,
    (∀ (root e : Ev2.Expr) (st : Ev2.St), (Ev2.evaluate_expr root fuel e st).steps st)
    ∧ (∀ (root : Ev2.Expr) (items : List Ev2.TableItem) (st : Ev2.St),
        (Ev2.evaluate_table root fuel items st).steps st)
    ∧ (∀ (root : Ev2.Expr) (id : Nat) (keys : List Ev2.Expr) (m : Ev2.RefModifier)
        (st : Ev2.St), (Ev2.evaluate_ref root fuel id keys m st).steps st)
    ∧ (∀ (root : Ev2.Expr) (keys : List Ev2.Expr) (cur : Option Ev2.Expr)
        (st : Ev2.St), (Ev2.evaluate_keys root fuel keys cur st).steps st)
    ∧ (∀ (root : Ev2.Expr) (s : String) (items : List Ev2.TableItem)
        (st : Ev2.St), (Ev2.scan_items root fuel s items st).steps st)
    ∧ (∀ (root k : Ev2.Expr) (st : Ev2.St), (Ev2.unwrap root fuel k st).steps st) := by
  intro fuel
  induction fuel with
  | zero =>
    refine ⟨?_, ?_, ?_, ?_, ?_, ?_⟩ <;> intros <;> exact trivial
  | succ f ih =>
    obtain ⟨ihE, ihT, ihR, ihK, ihS, ihU⟩ := ih
    refine ⟨?_, ?_, ?_, ?_, ?_, ?_⟩
    · -- evaluate_expr
      intro root e st
      cases e with
      | str v => exact ev2_step_rfl st
      | bool v => exact ev2_step_rfl st
      | int v => exact ev2_step_rfl st
      | float v => exact ev2_step_rfl st
      | ref id keys m => exact ihR root id keys m st
      | table items => exact ihT root items st
    · -- evaluate_table
      intro root items st
      cases items with
      | nil => exact ev2_step_rfl st
      | cons item rest =>
        simp only [Ev2.evaluate_table]
        split
        · next u1 s1 heq1 =>
          have h1 : Ev2.Step st s1 := by
            have h := ihE root item.key st
            rw [heq1] at h
            exact h
          split
          · next u2 s2 heq2 =>
            have h2 : Ev2.Step s1 s2 := by
              have h := ihE root item.value s1
              rw [heq2] at h
              exact h
            exact ev2_steps_before (ev2_step_trans h1 h2) (ihT root rest s2)
          · next e2 s2 heq2 =>
            have h2 : Ev2.Step s1 s2 := by
              have h := ihE root item.value s1
              rw [heq2] at h
              exact h
            exact ev2_step_trans h1 h2
          · trivial
        · next e1 s1 heq1 =>
          have h1 : Ev2.Step st s1 := by
            have h := ihE root item.key st
            rw [heq1] at h
            exact h
          exact h1
        · trivial
    · -- evaluate_ref
      intro root id keys m st
      simp only [Ev2.evaluate_ref]
      split
      · exact ev2_step_rfl st
      · rcases m with _ | _
        · dsimp only
          split
          · next cur2 st2 heq =>
            have h := ihK root keys (some root)
              (Ev2.setRef st id ⟨(st id).parent, (st id).cache, true⟩)
            rw [heq] at h
            exact ev2_step_trans (ev2_step_trans (ev2_step_set_true st id) h)
              (ev2_step_set_cache st2 id cur2)
          · next e2 st2 heq =>
            have h := ihK root keys (some root)
              (Ev2.setRef st id ⟨(st id).parent, (st id).cache, true⟩)
            rw [heq] at h
            exact ev2_step_trans (ev2_step_set_true st id) h
          · trivial
        · dsimp only
          split
          · next cur2 st2 heq =>
            have h := ihK root keys
              ((Ev2.setRef st id ⟨(st id).parent, (st id).cache, true⟩ id).parent)
              (Ev2.setRef st id ⟨(st id).parent, (st id).cache, true⟩)
            rw [heq] at h
            exact ev2_step_trans (ev2_step_trans (ev2_step_set_true st id) h)
              (ev2_step_set_cache st2 id cur2)
          · next e2 st2 heq =>
            have h := ihK root keys
              ((Ev2.setRef st id ⟨(st id).parent, (st id).cache, true⟩ id).parent)
              (Ev2.setRef st id ⟨(st id).parent, (st id).cache, true⟩)
            rw [heq] at h
            exact ev2_step_trans (ev2_step_set_true st id) h
          · trivial
    · -- evaluate_keys
      intro root keys cur st
      cases keys with
      | nil => exact ev2_step_rfl st
      | cons k ks =>
        simp only [Ev2.evaluate_keys]
        rcases cur with _ | curE
        · exact ev2_step_rfl st
        · dsimp only
          split
          · next curry s1 heq1 =>
            have h1 : Ev2.Step st s1 := by
              have h := ihU root curE st
              rw [heq1] at h
              exact h
            split
            · next kv s2 heq2 =>
              have h2 : Ev2.Step s1 s2 := by
                have h := ihU root k s1
                rw [heq2] at h
                exact h
              split
              · next s =>
                split
                · next items =>
                  split
                  · next v s3 heq3 =>
                    have h3 : Ev2.Step s2 s3 := by
                      have h := ihS root s items s2
                      rw [heq3] at h
                      exact h
                    exact ev2_steps_before
                      (ev2_step_trans (ev2_step_trans h1 h2) h3)
                      (ihK root ks (some v) s3)
                  · next s3 heq3 =>
                    have h3 : Ev2.Step s2 s3 := by
                      have h := ihS root s items s2
                      rw [heq3] at h
                      exact h
                    exact ev2_steps_before
                      (ev2_step_trans (ev2_step_trans h1 h2) h3)
                      (ihK root ks (some curE) s3)
                  · next e3 s3 heq3 =>
                    have h3 : Ev2.Step s2 s3 := by
                      have h := ihS root s items s2
                      rw [heq3] at h
                      exact h
                    exact ev2_step_trans (ev2_step_trans h1 h2) h3
                  · trivial
                · exact ev2_step_trans h1 h2
              · exact ev2_step_trans h1 h2
            · next e2 s2 heq2 =>
              have h2 : Ev2.Step s1 s2 := by
                have h := ihU root k s1
                rw [heq2] at h
                exact h
              exact ev2_step_trans h1 h2
            · trivial
          · next e1 s1 heq1 =>
            have h1 : Ev2.Step st s1 := by
              have h := ihU root curE st
              rw [heq1] at h
              exact h
            exact h1
          · trivial
    · -- scan_items
      intro root s items st
      cases items with
      | nil => exact ev2_step_rfl st
      | cons item rest =>
        simp only [Ev2.scan_items]
        split
        · next ik s1 heq1 =>
          have h1 : Ev2.Step st s1 := by
            have h := ihU root item.key st
            rw [heq1] at h
            exact h
          split
          · next s2 =>
            split
            · exact h1
            · exact ev2_steps_before h1 (ihS root s rest s1)
          · exact h1
        · next e1 s1 heq1 =>
          have h1 : Ev2.Step st s1 := by
            have h := ihU root item.key st
            rw [heq1] at h
            exact h
          split
          · exact ev2_steps_before h1 (ihS root s rest s1)
          · exact h1
        · trivial
    · -- unwrap
      intro root k st
      cases k with
      | str v => exact ev2_step_rfl st
      | bool v => exact ev2_step_rfl st
      | int v => exact ev2_step_rfl st
      | float v => exact ev2_step_rfl st
      | table items => exact ev2_step_rfl st
      | ref id keys m =>
        simp only [Ev2.unwrap]
        split
        · next u1 s1 heq1 =>
          have h1 : Ev2.Step st s1 := by
            have h := ihE root (.ref id keys m) st
            rw [heq1] at h
            exact h
          split
          · exact h1
          · next c heq2 => exact ev2_steps_before h1 (ihU root c s1)
        · next e1 s1 heq1 =>
          have h1 : Ev2.Step st s1 := by
            have h := ihE root (.ref id keys m) st
            rw [heq1] at h
            exact h
          exact h1
        · trivial

/-- A successful `_evaluate_ref` leaves the reference's evaluated flag set
(`evaluator2.py` model). -/
theorem ev2_ref_sets_flag {root : Ev2.Expr} {fuel id : Nat} {keys : List Ev2.Expr}
    {m : Ev2.RefModifier} {st st' : Ev2.St} {u : Unit}
    (h : Ev2.evaluate_ref root fuel id keys m st = .ok u st') :
    (st' id).evaluated = true := by
  rcases fuel with _ | f
  · exact absurd h (by simp [Ev2.evaluate_ref])
  · rw [Ev2.evaluate_ref] at h
    by_cases hev : (st id).evaluated = true
    · rw [if_pos hev] at h
      cases h
      exact hev
    · rw [if_neg hev] at h
      dsimp only at h
      rcases m with _ | _
      · dsimp only at h
        rcases hks : Ev2.evaluate_keys root f keys (some root)
            (Ev2.setRef st id ⟨(st id).parent, (st id).cache, true⟩) with
          ⟨cur, st2⟩ | ⟨e2, st2⟩ | _ <;> rw [hks] at h <;> cases h
        have h2 := (ev2_mono f).2.2.2.1 root keys (some root)
          (Ev2.setRef st id ⟨(st id).parent, (st id).cache, true⟩)
        rw [hks] at h2
        have hcov := h2.1 id (by simp [Ev2.setRef])
        simp [Ev2.setRef, hcov]
      · dsimp only at h
        rcases hks : Ev2.evaluate_keys root f keys
            ((Ev2.setRef st id ⟨(st id).parent, (st id).cache, true⟩ id).parent)
            (Ev2.setRef st id ⟨(st id).parent, (st id).cache, true⟩) with
          ⟨cur, st2⟩ | ⟨e2, st2⟩ | _ <;> rw [hks] at h <;> cases h
        have h2 := (ev2_mono f).2.2.2.1 root keys
          ((Ev2.setRef st id ⟨(st id).parent, (st id).cache, true⟩ id).parent)
          (Ev2.setRef st id ⟨(st id).parent, (st id).cache, true⟩)
        rw [hks] at h2
        have hcov := h2.1 id (by simp [Ev2.setRef])
        simp [Ev2.setRef, hcov]

/-- Second-run lemma for `evaluator2.py` (see `ev1_idem`). -/
theorem ev2_idem : ∀ fuel : Nat,
    (∀ (root e : Ev2.Expr) (st : Ev2.St) (u : Unit) (st' : Ev2.St),
      Ev2.evaluate_expr root fuel e st = .ok u st' →
      ∀ t, Ev2.Covers st' t → Ev2.evaluate_expr root fuel e t = .ok u t)
    ∧ (∀ (root : Ev2.Expr) (items : List Ev2.TableItem) (st : Ev2.St) (u : Unit)
        (st' : Ev2.St),
      Ev2.evaluate_table root fuel items st = .ok u st' →
      ∀ t, Ev2.Covers st' t → Ev2.evaluate_table root fuel items t = .ok u t) := by
  intro fuel
  induction fuel with
  | zero =>
    refine ⟨?_, ?_⟩ <;>
      (intro root x st u st' h t hc;
       exact absurd h (by simp [Ev2.evaluate_expr, Ev2.evaluate_table]))
  | succ f ih =>
    obtain ⟨ihE, ihT⟩ := ih
    refine ⟨?_, ?_⟩
    · intro root e st u st' h t hc
      cases e with
      | str v =>
        simp only [Ev2.evaluate_expr, Ev2.Res.ok.injEq] at h
        obtain ⟨-, rfl⟩ := h
        cases u
        rfl
      | bool v =>
        simp only [Ev2.evaluate_expr, Ev2.Res.ok.injEq] at h
        obtain ⟨-, rfl⟩ := h
        cases u
        rfl
      | int v =>
        simp only [Ev2.evaluate_expr, Ev2.Res.ok.injEq] at h
        obtain ⟨-, rfl⟩ := h
        cases u
        rfl
      | float v =>
        simp only [Ev2.evaluate_expr, Ev2.Res.ok.injEq] at h
        obtain ⟨-, rfl⟩ := h
        cases u
        rfl
      | table items =>
        simp only [Ev2.evaluate_expr] at h ⊢
        exact ihT root items st u st' h t hc
      | ref id keys m =>
        simp only [Ev2.evaluate_expr] at h
        rcases f with _ | g
        · exact absurd h (by simp [Ev2.evaluate_ref])
        · have hflag := ev2_ref_sets_flag h
          have ht : (t id).evaluated = true := hc id hflag
          cases u
          simp only [Ev2.evaluate_expr, Ev2.evaluate_ref, ht, if_true]
    · intro root items st u st' h t hc
      cases items with
      | nil =>
        simp only [Ev2.evaluate_table, Ev2.Res.ok.injEq] at h
        obtain ⟨-, rfl⟩ := h
        cases u
        rfl
      | cons item rest =>
        simp only [Ev2.evaluate_table] at h
        rcases hk : Ev2.evaluate_expr root f item.key st with ⟨u1, s1⟩ | ⟨e1, s1⟩ | _ <;>
          simp only [hk] at h
        · rcases hv : Ev2.evaluate_expr root f item.value s1 with ⟨u2, s2⟩ | ⟨e2, s2⟩ | _ <;>
            simp only [hv] at h
          · have m1 := (ev2_mono f).1 root item.value s1
            rw [hv] at m1
            have m2 := (ev2_mono f).2.1 root rest s2
            rw [h] at m2
            have c1 : Ev2.Covers s1 t :=
              ev2_covers_trans m1.1 (ev2_covers_trans m2.1 hc)
            have c2 : Ev2.Covers s2 t := ev2_covers_trans m2.1 hc
            cases u1
            cases u2
            have hk2 := ihE root item.key st () s1 hk t c1
            have hv2 := ihE root item.value s1 () s2 hv t c2
            have ht2 := ihT root rest s2 u st' h t hc
            simp only [Ev2.evaluate_table, hk2, hv2, ht2]
          · exact absurd h (by simp)
          · exact absurd h (by simp)
        · exact absurd h (by simp)
        · exact absurd h (by simp)

/-- Re-running `evaluate` of `src/evaluator2.py` after a successful run is a
no-op (see `ev1_second_run`). -/
theorem ev2_second_run (root : Ev2.Expr) (fuel : Nat) (st0 : Ev2.St) (r : Ev2.Expr)
    (st1 : Ev2.St) (h : Ev2.evaluate root fuel st0 = .ok r st1) :
    Ev2.evaluate root fuel st1 = .ok r st1 := by
  simp only [Ev2.evaluate] at h ⊢
  rcases he : Ev2.evaluate_expr root fuel root
      (Ev2.resolve (Ev2.parentInit root) root st0) with ⟨u, s⟩ | ⟨e1, s⟩ | _ <;>
    simp only [he] at h
  · injection h with hr hs
    subst hr
    subst hs
    have hm := (ev2_mono fuel).1 root root (Ev2.resolve (Ev2.parentInit root) root st0)
    rw [he] at hm
    have hfix := ev2_resolve_fixed (Ev2.parentInit root) root st0 s hm.2
    have hrun := (ev2_idem fuel).1 root root
      (Ev2.resolve (Ev2.parentInit root) root st0) u s he s (fun _ hh => hh)
    rw [hfix, hrun]
  · exact absurd h (by simp)
  · exact absurd h (by simp)

/-- Claim C8 (confirmed).  For both evaluators: if `evaluate` succeeds on a
tree from some starting state, calling `evaluate` again with the resulting
memo state succeeds, raises no error, returns the same tree, and leaves the
state — every reference's cached value included — unchanged.  (The resolver
rewrites the same `_parent` values it wrote the first time, and every
reference hot-exits on its `_evaluated`/`evaluated` flag.) -/
theorem c8_idempotent :
    (∀ (root : Ev1.Expr) (fuel : Nat) (st0 : Ev1.St) (r : Ev1.Expr) (st1 : Ev1.St),
      Ev1.evaluate root fuel st0 = .ok r st1 → Ev1.evaluate root fuel st1 = .ok r st1)
    ∧ (∀ (root : Ev2.Expr) (fuel : Nat) (st0 : Ev2.St) (r : Ev2.Expr) (st1 : Ev2.St),
      Ev2.evaluate root fuel st0 = .ok r st1 → Ev2.evaluate root fuel st1 = .ok r st1) :=
  ⟨ev1_second_run, ev2_second_run⟩

/-- Witness for `c8_idempotent`: both halves applied to the concrete trees
`c8tree1`/`c8tree2`, whose first evaluation from the fresh state succeeds
with the concrete memo states `c8st1`/`c8st2`. -/
theorem c8_witness :
    Ev1.evaluate c8tree1 32 c8st1 = .ok c8tree1 c8st1
    ∧ Ev2.evaluate c8tree2 32 c8st2 = .ok c8tree2 c8st2 :=
  ⟨c8_idempotent.1 c8tree1 32 Ev1.initState c8tree1 c8st1 rfl,
   c8_idempotent.2 c8tree2 32 Ev2.initState c8tree2 c8st2 rfl⟩
